import Mathlib

/-!
Verification of the GPT (GUID Partition Table) manipulation library `pygpt.py`.

The development shallowly embeds the byte-exact binary format (little-endian
struct packing, CRC32, UTF-16-LE names), the `GPT` aggregate (`LoadFromFile`,
`Create`, `UpdateChecksum`, `CheckIntegrity`, `WriteToFile`, `ExpandPartition`)
and the command layer (`Add`, `Show`, `Prioritize`, `Find`,
`WriteProtectiveMBR`) as executable Lean functions over `Nat`-valued bytes,
and proves or refutes the specified properties.

Machine integers are modelled as `Nat` with explicit bounds (`< 2 ^ 32`,
`< 2 ^ 64`); a byte is a `Nat` that is `< 256` for well-formed data.  A disk
image is a total function from byte offsets to bytes together with a size.
Fallible operations return `Except String`.
-/

/-! ## Byte-level helpers: Python `struct` little-endian packing -/

/-- Little-endian packing of an integer into `w` bytes, as `struct.pack`
does for the unsigned formats `L` (w = 4) and `Q` (w = 8). -/
def packLE : Nat → Nat → List Nat
  | 0, _ => []
  | w + 1, v => v % 256 :: packLE w (v / 256)

/-- Little-endian unpacking of a byte list, as `struct.unpack` does for the
unsigned integer formats. -/
def unpackLE : List Nat → Nat
  | [] => 0
  | b :: bs => b + 256 * unpackLE bs

@[simp] theorem packLE_length (w v : Nat) : (packLE w v).length = w := by
  induction w generalizing v with
  | zero => rfl
  | succ w ih => simp [packLE, ih]

theorem unpackLE_packLE_mod (w v : Nat) : unpackLE (packLE w v) = v % 256 ^ w := by
  induction w generalizing v with
  | zero => simp [packLE, unpackLE, Nat.mod_one]
  | succ w ih =>
      simp only [packLE, unpackLE, ih]
      rw [pow_succ, mul_comm (256 ^ w) 256, Nat.mod_mul]

theorem unpackLE_packLE (w v : Nat) (h : v < 256 ^ w) : unpackLE (packLE w v) = v := by
  rw [unpackLE_packLE_mod, Nat.mod_eq_of_lt h]

theorem packLE_lt (w v : Nat) : ∀ b ∈ packLE w v, b < 256 := by
  induction w generalizing v with
  | zero => simp [packLE]
  | succ w ih =>
      intro b hb
      simp only [packLE, List.mem_cons] at hb
      rcases hb with h | h
      · omega
      · exact ih _ _ h

/-- Padding/truncation of a byte string to a fixed width, as `struct.pack`
does for the `ns` formats (shorter values are zero-padded, longer truncated). -/
def padTrunc (n : Nat) (bs : List Nat) : List Nat :=
  bs.take n ++ List.replicate (n - bs.length) 0

@[simp] theorem padTrunc_length (n : Nat) (bs : List Nat) : (padTrunc n bs).length = n := by
  simp only [padTrunc, List.length_append, List.length_take, List.length_replicate]
  omega

theorem padTrunc_eq_self (n : Nat) (bs : List Nat) (h : bs.length = n) : padTrunc n bs = bs := by
  subst h
  simp [padTrunc]

theorem padTrunc_lt (n : Nat) (bs : List Nat) (h : ∀ b ∈ bs, b < 256) :
    ∀ b ∈ padTrunc n bs, b < 256 := by
  intro b hb
  simp only [padTrunc, List.mem_append] at hb
  rcases hb with h2 | h2
  · exact h b (List.take_subset n bs h2)
  · rw [List.eq_of_mem_replicate h2]; omega

/-! ## Bit-packed attribute fields (`BitProperty`)

`BitProperty(getter, setter, shift, mask)` in the source reads a field as
`(raw >> shift) & mask` and writes it as
`raw & ~(mask << shift) | value << shift` (after asserting
`value & mask == value`).  Python ints are arbitrary precision, so `~` is
the complement of an infinite two's-complement integer; on the 64-bit
attributes word this is the complement within 64 bits, written here as
XOR with `2 ^ 64 - 1`. -/

def bitGet (raw shift mask : Nat) : Nat := (raw >>> shift) &&& mask

def bitSet (raw shift mask value : Nat) : Nat :=
  raw &&& ((2 ^ 64 - 1) ^^^ (mask <<< shift)) ||| value <<< shift

/-- The (shift, mask) pairs of the `PartitionAttributes` bit fields:
`successful`, `tries`, `priority`, `legacy_boot`, `required`. -/
def attrFields : List (Nat × Nat) := [(56, 1), (52, 0xf), (48, 0xf), (2, 1), (0, 1)]

theorem testBit_ge_64 {x : Nat} (hx : x < 2 ^ 64) {i : Nat} (hi : 64 ≤ i) :
    x.testBit i = false :=
  Nat.testBit_eq_false_of_lt (lt_of_lt_of_le hx (Nat.pow_le_pow_right (by omega) hi))

theorem bitSet_frame (raw shift mask value : Nat) (hraw : raw < 2 ^ 64)
    (hms : mask <<< shift < 2 ^ 64) (hv : value &&& mask = value) (i : Nat)
    (hi : (mask <<< shift).testBit i = false) :
    (bitSet raw shift mask value).testBit i = raw.testBit i := by
  have hvs : (value <<< shift).testBit i = false := by
    rw [Nat.testBit_shiftLeft]
    by_cases hsh : shift ≤ i
    · have hmi : mask.testBit (i - shift) = false := by
        rw [Nat.testBit_shiftLeft] at hi
        simpa [hsh] using hi
      have hvi : value.testBit (i - shift) = false := by
        conv_lhs => rw [← hv]
        rw [Nat.testBit_land, hmi, Bool.and_false]
      simp [hvi]
    · simp [hsh]
  by_cases h64 : i < 64
  · simp only [bitSet, Nat.testBit_lor, Nat.testBit_land, Nat.testBit_xor,
      Nat.testBit_two_pow_sub_one, hi, hvs, decide_eq_true_eq]
    simp [h64]
  · rw [testBit_ge_64 hraw (by omega)]
    simp only [bitSet, Nat.testBit_lor, Nat.testBit_land, Nat.testBit_xor,
      Nat.testBit_two_pow_sub_one, hvs, hi]
    simp [show ¬ (i < 64) from h64]

theorem bitGet_bitSet (raw shift mask value : Nat)
    (hms : mask <<< shift < 2 ^ 64) (hv : value &&& mask = value) :
    bitGet (bitSet raw shift mask value) shift mask = value := by
  apply Nat.eq_of_testBit_eq
  intro i
  have hmask64 : ∀ j, mask.testBit j = true → shift + j < 64 := by
    intro j hj
    by_contra hge
    have : (mask <<< shift).testBit (shift + j) = true := by
      rw [Nat.testBit_shiftLeft]
      simp [hj, Nat.add_sub_cancel_left]
    rw [testBit_ge_64 hms (by omega)] at this
    exact Bool.false_ne_true this
  simp only [bitGet, Nat.testBit_land, Nat.testBit_shiftRight]
  by_cases hm : mask.testBit i
  · have hlt : shift + i < 64 := hmask64 i hm
    have hcompl : ((2 ^ 64 - 1) ^^^ mask <<< shift).testBit (shift + i) = false := by
      rw [Nat.testBit_xor, Nat.testBit_two_pow_sub_one, Nat.testBit_shiftLeft]
      simp [hlt, hm, Nat.add_sub_cancel_left]
    have hval : (value <<< shift).testBit (shift + i) = value.testBit i := by
      rw [Nat.testBit_shiftLeft]
      simp [Nat.add_sub_cancel_left]
    simp only [bitSet, Nat.testBit_lor, Nat.testBit_land, hcompl, hval, Bool.and_false,
      Bool.false_or, hm, Bool.and_true]
  · have : value.testBit i = false := by
      conv_lhs => rw [← hv]
      rw [Nat.testBit_land]
      simp [hm]
    simp [hm, this]

/-! ## GUID and attribute values -/

/-- A GUID value, identified (as `uuid.UUID` is) by its 16 little/mixed-endian
bytes `bytes_le`; `GUIDStructField` packs a GUID as `value.bytes_le` and
unpacks as `GUID(bytes_le=value)`. -/
structure GUID where
  bytes_le : List Nat
deriving DecidableEq

def GUID.valid (g : GUID) : Prop := g.bytes_le.length = 16 ∧ ∀ b ∈ g.bytes_le, b < 256

instance (g : GUID) : Decidable g.valid := by unfold GUID.valid; infer_instance

/-- `PartitionAttributes`: a view of the 64-bit attributes word. -/
structure PartitionAttributes where
  raw : Nat
deriving DecidableEq

def PartitionAttributes.successful (a : PartitionAttributes) : Nat := bitGet a.raw 56 1

def PartitionAttributes.tries (a : PartitionAttributes) : Nat := bitGet a.raw 52 0xf

def PartitionAttributes.priority (a : PartitionAttributes) : Nat := bitGet a.raw 48 0xf

def PartitionAttributes.legacy_boot (a : PartitionAttributes) : Nat := bitGet a.raw 2 1

def PartitionAttributes.required (a : PartitionAttributes) : Nat := bitGet a.raw 0 1

def PartitionAttributes.raw_16 (a : PartitionAttributes) : Nat := bitGet a.raw 48 0xffff

def PartitionAttributes.setSuccessful (a : PartitionAttributes) (v : Nat) : PartitionAttributes :=
  ⟨bitSet a.raw 56 1 v⟩

def PartitionAttributes.setTries (a : PartitionAttributes) (v : Nat) : PartitionAttributes :=
  ⟨bitSet a.raw 52 0xf v⟩

def PartitionAttributes.setPriority (a : PartitionAttributes) (v : Nat) : PartitionAttributes :=
  ⟨bitSet a.raw 48 0xf v⟩

def PartitionAttributes.setLegacyBoot (a : PartitionAttributes) (v : Nat) : PartitionAttributes :=
  ⟨bitSet a.raw 2 1 v⟩

def PartitionAttributes.setRequired (a : PartitionAttributes) (v : Nat) : PartitionAttributes :=
  ⟨bitSet a.raw 0 1 v⟩

def PartitionAttributes.setRaw16 (a : PartitionAttributes) (v : Nat) : PartitionAttributes :=
  ⟨bitSet a.raw 48 0xffff v⟩

/-! ## UTF-16-LE names (`UTF16StructField`)

A partition name is a Python string; `Pack` encodes it as UTF-16-LE and
`Unpack` decodes 72 bytes and strips NUL characters from both ends.  The
string is modelled as its list of UTF-16 code units (each `< 2 ^ 16`); a
unit `u` encodes to the two bytes `u & 0xFF` and `u >> 8`. -/

def utf16Encode : List Nat → List Nat
  | [] => []
  | u :: us => u % 256 :: u / 256 :: utf16Encode us

def utf16Decode : List Nat → List Nat
  | a :: b :: rest => (a + 256 * b) :: utf16Decode rest
  | _ => []

/-- Python `str.strip('\x00')`: remove NUL units from both ends. -/
def stripNul (l : List Nat) : List Nat :=
  ((l.dropWhile (fun u => u == 0)).reverse.dropWhile (fun u => u == 0)).reverse

/-- A name that survives the UTF-16 pack/unpack round trip: it fits in the
72-byte field (`Pack` raises `StructError` at 72 encoded bytes or more),
all units are 16-bit, and no NUL unit sits at either end (those would be
stripped by `Unpack`). -/
def validName (us : List Nat) : Prop :=
  us.length ≤ 35 ∧ (∀ u ∈ us, u < 65536) ∧ us.head? ≠ some 0 ∧ us.getLast? ≠ some 0

instance (us : List Nat) : Decidable (validName us) := by unfold validName; infer_instance

@[simp] theorem utf16Encode_length (us : List Nat) : (utf16Encode us).length = 2 * us.length := by
  induction us with
  | nil => rfl
  | cons u us ih =>
      simp only [utf16Encode, List.length_cons, ih]
      omega

theorem utf16Encode_lt (us : List Nat) (h : ∀ u ∈ us, u < 65536) :
    ∀ b ∈ utf16Encode us, b < 256 := by
  induction us with
  | nil => simp [utf16Encode]
  | cons u us ih =>
      intro b hb
      simp only [utf16Encode, List.mem_cons] at hb
      have hu : u < 65536 := h u (by simp)
      rcases hb with rfl | rfl | hb
      · omega
      · omega
      · exact ih (fun v hv => h v (by simp [hv])) b hb

theorem utf16Decode_encode_append (us r : List Nat) :
    utf16Decode (utf16Encode us ++ r) = us ++ utf16Decode r := by
  induction us with
  | nil => rfl
  | cons u us ih =>
      have hmod : u % 256 + 256 * (u / 256) = u := Nat.mod_add_div u 256
      simp [utf16Encode, utf16Decode, ih, hmod]

theorem utf16Decode_replicate_zero (k : Nat) :
    utf16Decode (List.replicate (2 * k) 0) = List.replicate k 0 := by
  induction k with
  | zero => rfl
  | succ k ih =>
      have : 2 * (k + 1) = 2 * k + 1 + 1 := by omega
      rw [this, List.replicate_succ, List.replicate_succ, List.replicate_succ]
      simpa [utf16Decode] using ih

theorem stripNul_append_replicate (us : List Nat) (m : Nat)
    (hh : us.head? ≠ some 0) (hl : us.getLast? ≠ some 0) :
    stripNul (us ++ List.replicate m 0) = us := by
  unfold stripNul
  cases us with
  | nil =>
      rw [List.nil_append, List.dropWhile_replicate]
      simp
  | cons u us =>
      have hu : ¬ ((fun x : Nat => x == 0) u = true) := by
        simp only [List.head?_cons, ne_eq, Option.some.injEq] at hh
        simpa using hh
      have key : ((u :: us) ++ List.replicate m 0).dropWhile (fun x => x == 0) =
          (u :: us) ++ List.replicate m 0 := by
        rw [List.cons_append]
        exact List.dropWhile_cons_of_neg hu
      rw [key, List.reverse_append, List.reverse_replicate]
      rw [List.dropWhile_append_of_pos (by
        intro a ha
        simp [List.eq_of_mem_replicate ha])]
      cases hr : (u :: us).reverse with
      | nil => simp at hr
      | cons a t =>
          have hga : (u :: us).getLast? = some a := by
            rw [← List.head?_reverse, hr]
            rfl
          have ha0 : ¬ (a = 0) := by
            intro h0
            exact hl (by rw [hga, h0])
          rw [List.dropWhile_cons]
          simp only [beq_iff_eq]
          rw [if_neg ha0, ← hr, List.reverse_reverse]

theorem utf16_roundTrip (us : List Nat) (hv : validName us) :
    stripNul (utf16Decode (padTrunc 72 (utf16Encode us))) = us := by
  obtain ⟨hlen, _, hh, hl⟩ := hv
  have henc : (utf16Encode us).length = 2 * us.length := utf16Encode_length us
  have hle : (utf16Encode us).length ≤ 72 := by omega
  rw [padTrunc, List.take_of_length_le hle]
  have : 72 - (utf16Encode us).length = 2 * (36 - us.length) := by omega
  rw [this, utf16Decode_encode_append, utf16Decode_replicate_zero]
  exact stripNul_append_replicate us _ hh hl

/-! ## The concrete record types: Header, Partition, ProtectiveMBR

Each record is a `GPTObject` with an ordered field list (`HEADER_FIELDS`,
`PARTITION_FIELDS`, `PMBR_FIELDS`); `Pack` produces the little-endian
`struct` encoding of the fields in order and `Unpack` consumes a byte
string field by field. -/

structure Header where
  Signature : List Nat
  Revision : List Nat
  HeaderSize : Nat
  CRC32 : Nat
  Reserved : List Nat
  CurrentLBA : Nat
  BackupLBA : Nat
  FirstUsableLBA : Nat
  LastUsableLBA : Nat
  DiskGUID : GUID
  PartitionEntriesStartingLBA : Nat
  PartitionEntriesNumber : Nat
  PartitionEntrySize : Nat
  PartitionArrayCRC32 : Nat
deriving DecidableEq

structure Partition where
  TypeGUID : GUID
  UniqueGUID : GUID
  FirstLBA : Nat
  LastLBA : Nat
  Attributes : PartitionAttributes
  Names : List Nat
deriving DecidableEq

structure ProtectiveMBR where
  BootCode : List Nat
  BootGUID : GUID
  DiskID : Nat
  Magic : List Nat
  LegacyPart0 : List Nat
  LegacyPart1 : List Nat
  LegacyPart2 : List Nat
  LegacyPart3 : List Nat
  Signature : List Nat
deriving DecidableEq

def Header.Pack (h : Header) : List Nat :=
  padTrunc 8 h.Signature ++ (padTrunc 4 h.Revision ++ (packLE 4 h.HeaderSize ++
  (packLE 4 h.CRC32 ++ (padTrunc 4 h.Reserved ++ (packLE 8 h.CurrentLBA ++
  (packLE 8 h.BackupLBA ++ (packLE 8 h.FirstUsableLBA ++ (packLE 8 h.LastUsableLBA ++
  (padTrunc 16 h.DiskGUID.bytes_le ++ (packLE 8 h.PartitionEntriesStartingLBA ++
  (packLE 4 h.PartitionEntriesNumber ++ (packLE 4 h.PartitionEntrySize ++
  packLE 4 h.PartitionArrayCRC32))))))))))))

def Header.Unpack (bs : List Nat) : Header :=
  let r1 := bs.drop 8
  let r2 := r1.drop 4
  let r3 := r2.drop 4
  let r4 := r3.drop 4
  let r5 := r4.drop 4
  let r6 := r5.drop 8
  let r7 := r6.drop 8
  let r8 := r7.drop 8
  let r9 := r8.drop 8
  let r10 := r9.drop 16
  let r11 := r10.drop 8
  let r12 := r11.drop 4
  let r13 := r12.drop 4
  { Signature := bs.take 8
    Revision := r1.take 4
    HeaderSize := unpackLE (r2.take 4)
    CRC32 := unpackLE (r3.take 4)
    Reserved := r4.take 4
    CurrentLBA := unpackLE (r5.take 8)
    BackupLBA := unpackLE (r6.take 8)
    FirstUsableLBA := unpackLE (r7.take 8)
    LastUsableLBA := unpackLE (r8.take 8)
    DiskGUID := ⟨r9.take 16⟩
    PartitionEntriesStartingLBA := unpackLE (r10.take 8)
    PartitionEntriesNumber := unpackLE (r11.take 4)
    PartitionEntrySize := unpackLE (r12.take 4)
    PartitionArrayCRC32 := unpackLE (r13.take 4) }

def Partition.Pack (p : Partition) : List Nat :=
  padTrunc 16 p.TypeGUID.bytes_le ++ (padTrunc 16 p.UniqueGUID.bytes_le ++
  (packLE 8 p.FirstLBA ++ (packLE 8 p.LastLBA ++ (packLE 8 p.Attributes.raw ++
  padTrunc 72 (utf16Encode p.Names)))))

def Partition.Unpack (bs : List Nat) : Partition :=
  let r1 := bs.drop 16
  let r2 := r1.drop 16
  let r3 := r2.drop 8
  let r4 := r3.drop 8
  let r5 := r4.drop 8
  { TypeGUID := ⟨bs.take 16⟩
    UniqueGUID := ⟨r1.take 16⟩
    FirstLBA := unpackLE (r2.take 8)
    LastLBA := unpackLE (r3.take 8)
    Attributes := ⟨unpackLE (r4.take 8)⟩
    Names := stripNul (utf16Decode (r5.take 72)) }

def ProtectiveMBR.Pack (m : ProtectiveMBR) : List Nat :=
  padTrunc 424 m.BootCode ++ (padTrunc 16 m.BootGUID.bytes_le ++ (packLE 4 m.DiskID ++
  (padTrunc 2 m.Magic ++ (padTrunc 16 m.LegacyPart0 ++ (padTrunc 16 m.LegacyPart1 ++
  (padTrunc 16 m.LegacyPart2 ++ (padTrunc 16 m.LegacyPart3 ++ padTrunc 2 m.Signature)))))))

def ProtectiveMBR.Unpack (bs : List Nat) : ProtectiveMBR :=
  let r1 := bs.drop 424
  let r2 := r1.drop 16
  let r3 := r2.drop 4
  let r4 := r3.drop 2
  let r5 := r4.drop 16
  let r6 := r5.drop 16
  let r7 := r6.drop 16
  let r8 := r7.drop 16
  { BootCode := bs.take 424
    BootGUID := ⟨r1.take 16⟩
    DiskID := unpackLE (r2.take 4)
    Magic := r3.take 2
    LegacyPart0 := r4.take 16
    LegacyPart1 := r5.take 16
    LegacyPart2 := r6.take 16
    LegacyPart3 := r7.take 16
    Signature := r8.take 2 }

/-- A well-formed in-memory Header: byte-string fields have their exact
declared width and numeric fields fit the `struct` formats `L` / `Q`. -/
def Header.valid (h : Header) : Prop :=
  h.Signature.length = 8 ∧ (∀ b ∈ h.Signature, b < 256) ∧
  h.Revision.length = 4 ∧ (∀ b ∈ h.Revision, b < 256) ∧
  h.HeaderSize < 256 ^ 4 ∧ h.CRC32 < 256 ^ 4 ∧
  h.Reserved.length = 4 ∧ (∀ b ∈ h.Reserved, b < 256) ∧
  h.CurrentLBA < 256 ^ 8 ∧ h.BackupLBA < 256 ^ 8 ∧ h.FirstUsableLBA < 256 ^ 8 ∧
  h.LastUsableLBA < 256 ^ 8 ∧ h.DiskGUID.valid ∧
  h.PartitionEntriesStartingLBA < 256 ^ 8 ∧ h.PartitionEntriesNumber < 256 ^ 4 ∧
  h.PartitionEntrySize < 256 ^ 4 ∧ h.PartitionArrayCRC32 < 256 ^ 4

instance (h : Header) : Decidable h.valid := by unfold Header.valid; infer_instance

/-- A well-formed in-memory Partition entry. -/
def Partition.valid (p : Partition) : Prop :=
  p.TypeGUID.valid ∧ p.UniqueGUID.valid ∧ p.FirstLBA < 256 ^ 8 ∧ p.LastLBA < 256 ^ 8 ∧
  p.Attributes.raw < 256 ^ 8 ∧ validName p.Names

instance (p : Partition) : Decidable p.valid := by unfold Partition.valid; infer_instance

/-- A well-formed in-memory Protective MBR. -/
def ProtectiveMBR.valid (m : ProtectiveMBR) : Prop :=
  m.BootCode.length = 424 ∧ (∀ b ∈ m.BootCode, b < 256) ∧ m.BootGUID.valid ∧
  m.DiskID < 256 ^ 4 ∧
  m.Magic.length = 2 ∧ (∀ b ∈ m.Magic, b < 256) ∧
  m.LegacyPart0.length = 16 ∧ (∀ b ∈ m.LegacyPart0, b < 256) ∧
  m.LegacyPart1.length = 16 ∧ (∀ b ∈ m.LegacyPart1, b < 256) ∧
  m.LegacyPart2.length = 16 ∧ (∀ b ∈ m.LegacyPart2, b < 256) ∧
  m.LegacyPart3.length = 16 ∧ (∀ b ∈ m.LegacyPart3, b < 256) ∧
  m.Signature.length = 2 ∧ (∀ b ∈ m.Signature, b < 256)

instance (m : ProtectiveMBR) : Decidable m.valid := by
  unfold ProtectiveMBR.valid; infer_instance

@[simp] theorem headerPack_length (h : Header) : h.Pack.length = 92 := by
  simp [Header.Pack]

@[simp] theorem partitionPack_length (p : Partition) : p.Pack.length = 128 := by
  simp [Partition.Pack]

@[simp] theorem pmbrPack_length (m : ProtectiveMBR) : m.Pack.length = 512 := by
  simp [ProtectiveMBR.Pack]

theorem headerUnpack_Pack (h : Header) (hv : h.valid) : Header.Unpack h.Pack = h := by
  obtain ⟨hsl, hsb, hrl, hrb, hhs, hcrc, hresl, hresb, hcur, hbak, hfu, hlu,
    ⟨hdgl, hdgb⟩, hpes, hnum, hsz, hpac⟩ := hv
  simp only [Header.Unpack, Header.Pack, List.drop_left', List.take_left',
    List.take_of_length_le, packLE_length, padTrunc_length, le_refl]
  rw [padTrunc_eq_self _ _ hsl, padTrunc_eq_self _ _ hrl, padTrunc_eq_self _ _ hresl,
    padTrunc_eq_self _ _ hdgl, unpackLE_packLE _ _ hhs, unpackLE_packLE _ _ hcrc,
    unpackLE_packLE _ _ hcur, unpackLE_packLE _ _ hbak, unpackLE_packLE _ _ hfu,
    unpackLE_packLE _ _ hlu, unpackLE_packLE _ _ hpes, unpackLE_packLE _ _ hnum,
    unpackLE_packLE _ _ hsz, unpackLE_packLE _ _ hpac]

theorem partitionUnpack_Pack (p : Partition) (hv : p.valid) : Partition.Unpack p.Pack = p := by
  obtain ⟨⟨htl, htb⟩, ⟨hul, hub⟩, hfl, hll, hat, hnm⟩ := hv
  simp only [Partition.Unpack, Partition.Pack, List.drop_left', List.take_left',
    List.take_of_length_le, packLE_length, padTrunc_length, le_refl]
  rw [padTrunc_eq_self _ _ htl, padTrunc_eq_self _ _ hul, unpackLE_packLE _ _ hfl,
    unpackLE_packLE _ _ hll, unpackLE_packLE _ _ hat, utf16_roundTrip _ hnm]

theorem pmbrUnpack_Pack (m : ProtectiveMBR) (hv : m.valid) :
    ProtectiveMBR.Unpack m.Pack = m := by
  obtain ⟨hbl, hbb, ⟨hgl, hgb⟩, hdi, hml, hmb, h0l, h0b, h1l, h1b, h2l, h2b,
    h3l, h3b, hsl, hsb⟩ := hv
  simp only [ProtectiveMBR.Unpack, ProtectiveMBR.Pack, List.drop_left', List.take_left',
    List.take_of_length_le, packLE_length, padTrunc_length, le_refl]
  rw [padTrunc_eq_self _ _ hbl, padTrunc_eq_self _ _ hgl, padTrunc_eq_self _ _ hml,
    padTrunc_eq_self _ _ h0l, padTrunc_eq_self _ _ h1l, padTrunc_eq_self _ _ h2l,
    padTrunc_eq_self _ _ h3l, padTrunc_eq_self _ _ hsl, unpackLE_packLE _ _ hdi]

theorem headerPack_lt (h : Header) (hv : h.valid) : ∀ b ∈ h.Pack, b < 256 := by
  obtain ⟨hsl, hsb, hrl, hrb, hhs, hcrc, hresl, hresb, hcur, hbak, hfu, hlu,
    ⟨hdgl, hdgb⟩, hpes, hnum, hsz, hpac⟩ := hv
  intro b hb
  simp only [Header.Pack, List.mem_append] at hb
  rcases hb with hb | hb | hb | hb | hb | hb | hb | hb | hb | hb | hb | hb | hb | hb
  · exact padTrunc_lt _ _ hsb b hb
  · exact padTrunc_lt _ _ hrb b hb
  · exact packLE_lt _ _ b hb
  · exact packLE_lt _ _ b hb
  · exact padTrunc_lt _ _ hresb b hb
  · exact packLE_lt _ _ b hb
  · exact packLE_lt _ _ b hb
  · exact packLE_lt _ _ b hb
  · exact packLE_lt _ _ b hb
  · exact padTrunc_lt _ _ hdgb b hb
  · exact packLE_lt _ _ b hb
  · exact packLE_lt _ _ b hb
  · exact packLE_lt _ _ b hb
  · exact packLE_lt _ _ b hb

theorem partitionPack_lt (p : Partition) (hv : p.valid) : ∀ b ∈ p.Pack, b < 256 := by
  obtain ⟨⟨htl, htb⟩, ⟨hul, hub⟩, hfl, hll, hat, ⟨hn1, hn2, hn3, hn4⟩⟩ := hv
  intro b hb
  simp only [Partition.Pack, List.mem_append] at hb
  rcases hb with hb | hb | hb | hb | hb | hb
  · exact padTrunc_lt _ _ htb b hb
  · exact padTrunc_lt _ _ hub b hb
  · exact packLE_lt _ _ b hb
  · exact packLE_lt _ _ b hb
  · exact packLE_lt _ _ b hb
  · exact padTrunc_lt _ _ (utf16Encode_lt _ hn2) b hb

/-! ## The packed partition table -/

/-- `b''.join(p.blob for p in partitions)`. -/
def packTable (ps : List Partition) : List Nat := (ps.map Partition.Pack).join

/-- Reading `n` partition entries of 128 bytes each from a byte string, in
order, as the `ReadPartition` loop of `LoadFromFile` does from the stream. -/
def unpackTable : Nat → List Nat → List Partition
  | 0, _ => []
  | n + 1, bs => Partition.Unpack (bs.take 128) :: unpackTable n (bs.drop 128)

@[simp] theorem packTable_nil : packTable [] = [] := rfl

theorem packTable_cons (p : Partition) (ps : List Partition) :
    packTable (p :: ps) = p.Pack ++ packTable ps := by
  simp [packTable]

@[simp] theorem packTable_length (ps : List Partition) :
    (packTable ps).length = 128 * ps.length := by
  induction ps with
  | nil => rfl
  | cons p ps ih =>
      rw [packTable_cons]
      simp only [List.length_append, ih, partitionPack_length, List.length_cons]
      ring

theorem packTable_lt (ps : List Partition) (hv : ∀ p ∈ ps, p.valid) :
    ∀ b ∈ packTable ps, b < 256 := by
  induction ps with
  | nil => simp
  | cons p ps ih =>
      intro b hb
      rw [packTable_cons] at hb
      rcases List.mem_append.1 hb with hb | hb
      · exact partitionPack_lt p (hv p (by simp)) b hb
      · exact ih (fun q hq => hv q (by simp [hq])) b hb

theorem unpackTable_packTable (ps : List Partition) (hv : ∀ p ∈ ps, p.valid) :
    unpackTable ps.length (packTable ps) = ps := by
  induction ps with
  | nil => rfl
  | cons p ps ih =>
      rw [List.length_cons, packTable_cons]
      simp only [unpackTable]
      rw [List.take_left' (partitionPack_length p), List.drop_left' (partitionPack_length p)]
      rw [partitionUnpack_Pack p (hv p (by simp)), ih (fun q hq => hv q (by simp [hq]))]

/-! ## CRC32 (the collaborator `binascii.crc32`)

Standard reflected CRC-32 with polynomial `0xEDB88320`, initial value and
final XOR `0xFFFFFFFF`, processing one byte at a time with 8 shift rounds. -/

def crc32Round (c : Nat) : Nat :=
  if c &&& 1 = 1 then (c >>> 1) ^^^ 0xEDB88320 else c >>> 1

def crc32Byte (crc b : Nat) : Nat := crc32Round^[8] (crc ^^^ b)

/-- The byte fold of the CRC.  The accumulator is matched to a numeral at
every step, which keeps the reduction depth of a concrete evaluation
independent of the input length; `crc32Fold_eq_foldl` below shows this is
the plain left fold of `crc32Byte`. -/
def crc32Fold : Nat → List Nat → Nat
  | c, [] => c
  | c, b :: bs =>
      match crc32Byte c b with
      | 0 => crc32Fold 0 bs
      | c' + 1 => crc32Fold (c' + 1) bs

theorem crc32Fold_eq_foldl (bs : List Nat) (c : Nat) :
    crc32Fold c bs = bs.foldl crc32Byte c := by
  induction bs generalizing c with
  | nil => rfl
  | cons b bs ih =>
      rw [List.foldl_cons, ← ih]
      show (match crc32Byte c b with
        | 0 => crc32Fold 0 bs
        | c' + 1 => crc32Fold (c' + 1) bs) = crc32Fold (crc32Byte c b) bs
      cases crc32Byte c b <;> rfl

def crc32 (data : List Nat) : Nat := crc32Fold 0xFFFFFFFF data ^^^ 0xFFFFFFFF

theorem crc32_eq_foldl (data : List Nat) :
    crc32 data = data.foldl crc32Byte 0xFFFFFFFF ^^^ 0xFFFFFFFF := by
  rw [crc32, crc32Fold_eq_foldl]

set_option maxRecDepth 4000 in
/-- Sanity check of the CRC-32 model on the standard test vector
(`binascii.crc32(b"123456789") == 0xCBF43926`). -/
theorem crc32_test_vector : crc32 [49, 50, 51, 52, 53, 54, 55, 56, 57] = 0xCBF43926 := by
  decide

theorem crc32Round_lt (c : Nat) (h : c < 2 ^ 32) : crc32Round c < 2 ^ 32 := by
  have hs : c >>> 1 < 2 ^ 32 := by
    rw [Nat.shiftRight_eq_div_pow]
    exact lt_of_le_of_lt (Nat.div_le_self _ _) h
  unfold crc32Round
  split
  · exact Nat.xor_lt_two_pow hs (by norm_num)
  · exact hs

theorem crc32_iterate_lt (n c : Nat) (h : c < 2 ^ 32) : crc32Round^[n] c < 2 ^ 32 := by
  induction n with
  | zero => simpa using h
  | succ n ih =>
      rw [Function.iterate_succ_apply']
      exact crc32Round_lt _ ih

theorem crc32Byte_lt (c b : Nat) (hc : c < 2 ^ 32) (hb : b < 256) : crc32Byte c b < 2 ^ 32 :=
  crc32_iterate_lt 8 _ (Nat.xor_lt_two_pow hc (by omega))

theorem crc32_foldl_lt (l : List Nat) (c : Nat) (hc : c < 2 ^ 32) (hl : ∀ b ∈ l, b < 256) :
    l.foldl crc32Byte c < 2 ^ 32 := by
  induction l generalizing c with
  | nil => simpa using hc
  | cons b l ih =>
      rw [List.foldl_cons]
      exact ih _ (crc32Byte_lt c b hc (hl b (by simp))) (fun x hx => hl x (by simp [hx]))

theorem crc32_lt (data : List Nat) (h : ∀ b ∈ data, b < 256) : crc32 data < 2 ^ 32 := by
  rw [crc32_eq_foldl]
  exact Nat.xor_lt_two_pow (crc32_foldl_lt data _ (by norm_num) h) (by norm_num)

/-! ## Disk images

A disk image (file or block device) is modelled as its size and a total
byte-read function; `writeData` is a `seek`-and-`write` that overlays a
blob at an offset. -/

structure Image where
  size : Nat
  byteAt : Nat → Nat

def readBytes (img : Image) (off n : Nat) : List Nat :=
  (List.range n).map (fun i => img.byteAt (off + i))

def writeData (img : Image) (off : Nat) (blob : List Nat) : Image :=
  { img with
    byteAt := fun i => if off ≤ i ∧ i < off + blob.length then blob.getD (i - off) 0
      else img.byteAt i }

@[simp] theorem readBytes_length (img : Image) (off n : Nat) :
    (readBytes img off n).length = n := by
  simp [readBytes]

@[simp] theorem writeData_size (img : Image) (off : Nat) (blob : List Nat) :
    (writeData img off blob).size = img.size := rfl

theorem readBytes_writeData_seg (img : Image) (off : Nat) (blob : List Nat) (k n : Nat)
    (h : k + n ≤ blob.length) :
    readBytes (writeData img off blob) (off + k) n = (blob.drop k).take n := by
  apply List.ext_getElem
  · simp only [readBytes_length, List.length_take, List.length_drop]
    omega
  · intro i h1 h2
    simp only [readBytes, writeData, List.getElem_map, List.getElem_range,
      List.length_map, List.length_range] at h1 ⊢
    rw [if_pos (by omega)]
    rw [List.getElem_take, List.getElem_drop]
    rw [List.getD_eq_getElem _ _ (by omega)]
    congr 1
    omega

theorem readBytes_writeData_hit (img : Image) (off : Nat) (blob : List Nat) (n : Nat)
    (h : blob.length = n) :
    readBytes (writeData img off blob) off n = blob := by
  subst h
  have := readBytes_writeData_seg img off blob 0 blob.length (by omega)
  simpa using this

theorem readBytes_writeData_miss (img : Image) (off : Nat) (blob : List Nat)
    (off2 n : Nat) (h : off2 + n ≤ off ∨ off + blob.length ≤ off2) :
    readBytes (writeData img off blob) off2 n = readBytes img off2 n := by
  apply List.ext_getElem
  · simp
  · intro i h1 h2
    simp only [readBytes, writeData, List.getElem_map, List.getElem_range,
      List.length_map, List.length_range] at h1 ⊢
    rw [if_neg (by omega)]

/-! ## GPT type GUIDs (`TYPE_GUID_MAP`) -/

/-- `GUID(00000000-0000-0000-0000-000000000000)` (Unused). -/
def GPT.TYPE_GUID_UNUSED : GUID := GUID.mk [0x00, 0x00, 0x00, 0x00, 0x00, 0x00, 0x00, 0x00, 0x00, 0x00, 0x00, 0x00, 0x00, 0x00, 0x00, 0x00]

/-- `GUID(EBD0A0A2-B9E5-4433-87C0-68B6B72699C7)` (Basic data stateful). -/
def GPT.TYPE_GUID_BASIC_DATA : GUID := GUID.mk [0xa2, 0xa0, 0xd0, 0xeb, 0xe5, 0xb9, 0x33, 0x44, 0x87, 0xc0, 0x68, 0xb6, 0xb7, 0x26, 0x99, 0xc7]

/-- `GUID(0FC63DAF-8483-4772-8E79-3D69D8477DE4)` (Linux data). -/
def GPT.TYPE_GUID_LINUX_DATA : GUID := GUID.mk [0xaf, 0x3d, 0xc6, 0x0f, 0x83, 0x84, 0x72, 0x47, 0x8e, 0x79, 0x3d, 0x69, 0xd8, 0x47, 0x7d, 0xe4]

/-- `GUID(FE3A2A5D-4F32-41A7-B725-ACCC3285A309)` (ChromeOS kernel). -/
def GPT.TYPE_GUID_CHROMEOS_KERNEL : GUID := GUID.mk [0x5d, 0x2a, 0x3a, 0xfe, 0x32, 0x4f, 0xa7, 0x41, 0xb7, 0x25, 0xac, 0xcc, 0x32, 0x85, 0xa3, 0x09]

/-- `GUID(3CB8E202-3B7E-47DD-8A3C-7FF2A13CFCEC)` (ChromeOS rootfs). -/
def GPT.TYPE_GUID_CHROMEOS_ROOTFS : GUID := GUID.mk [0x02, 0xe2, 0xb8, 0x3c, 0x7e, 0x3b, 0xdd, 0x47, 0x8a, 0x3c, 0x7f, 0xf2, 0xa1, 0x3c, 0xfc, 0xec]

/-- `GUID(2E0A753D-9E48-43B0-8337-B15192CB1B5E)` (ChromeOS reserved). -/
def GPT.TYPE_GUID_CHROMEOS_RESERVED : GUID := GUID.mk [0x3d, 0x75, 0x0a, 0x2e, 0x48, 0x9e, 0xb0, 0x43, 0x83, 0x37, 0xb1, 0x51, 0x92, 0xcb, 0x1b, 0x5e]

/-- `GUID(CAB6E88E-ABF3-4102-A07A-D4BB9BE3C1D3)` (ChromeOS firmware). -/
def GPT.TYPE_GUID_CHROMEOS_FIRMWARE : GUID := GUID.mk [0x8e, 0xe8, 0xb6, 0xca, 0xf3, 0xab, 0x02, 0x41, 0xa0, 0x7a, 0xd4, 0xbb, 0x9b, 0xe3, 0xc1, 0xd3]

/-- `GUID(C12A7328-F81F-11D2-BA4B-00A0C93EC93B)` (EFI System Partition). -/
def GPT.TYPE_GUID_EFI : GUID := GUID.mk [0x28, 0x73, 0x2a, 0xc1, 0x1f, 0xf8, 0xd2, 0x11, 0xba, 0x4b, 0x00, 0xa0, 0xc9, 0x3e, 0xc9, 0x3b]

/-- `GUID(09845860-705F-4BB5-B16C-8A8A099CAF52)` (ChromeOS MINIOS). -/
def GPT.TYPE_GUID_CHROMEOS_MINIOS : GUID := GUID.mk [0x60, 0x58, 0x84, 0x09, 0x5f, 0x70, 0xb5, 0x4b, 0xb1, 0x6c, 0x8a, 0x8a, 0x09, 0x9c, 0xaf, 0x52]

/-- `GUID(3F0F8318-F146-4E6B-8222-C28C8F02E0D5)` (ChromeOS hibernate). -/
def GPT.TYPE_GUID_CHROMEOS_HIBERNATE : GUID := GUID.mk [0x18, 0x83, 0x0f, 0x3f, 0x46, 0xf1, 0x6b, 0x4e, 0x82, 0x22, 0xc2, 0x8c, 0x8f, 0x02, 0xe0, 0xd5]

/-- `TYPE_GUID_MAP`: type GUID to display alias. -/
def GPT.TYPE_GUID_MAP : List (GUID × String) := [
  (GPT.TYPE_GUID_UNUSED, "Unused"),
  (GPT.TYPE_GUID_BASIC_DATA, "Basic data stateful"),
  (GPT.TYPE_GUID_LINUX_DATA, "Linux data"),
  (GPT.TYPE_GUID_CHROMEOS_KERNEL, "ChromeOS kernel"),
  (GPT.TYPE_GUID_CHROMEOS_ROOTFS, "ChromeOS rootfs"),
  (GPT.TYPE_GUID_CHROMEOS_RESERVED, "ChromeOS reserved"),
  (GPT.TYPE_GUID_CHROMEOS_FIRMWARE, "ChromeOS firmware"),
  (GPT.TYPE_GUID_EFI, "EFI System Partition"),
  (GPT.TYPE_GUID_CHROMEOS_MINIOS, "ChromeOS MINIOS"),
  (GPT.TYPE_GUID_CHROMEOS_HIBERNATE, "ChromeOS hibernate")]

/-- `TYPE_GUID_LIST_BOOTABLE`. -/
def GPT.TYPE_GUID_LIST_BOOTABLE : List GUID :=
  [GPT.TYPE_GUID_CHROMEOS_KERNEL, GPT.TYPE_GUID_EFI]

/-! ## Signature constants -/

/-- `b"EFI PART"`. -/
def Header.SIGNATURE_EFI_PART : List Nat := [69, 70, 73, 32, 80, 65, 82, 84]

/-- `b"CHROMEOS"`. -/
def Header.SIGNATURE_CHROMEOS : List Nat := [67, 72, 82, 79, 77, 69, 79, 83]

/-- `Header.SIGNATURES`. -/
def Header.SIGNATURES : List (List Nat) := [Header.SIGNATURE_EFI_PART, Header.SIGNATURE_CHROMEOS]

/-- `ProtectiveMBR.SIGNATURE = b"\x55\xAA"`. -/
def ProtectiveMBR.SIGNATURE : List Nat := [0x55, 0xAA]

/-- `ProtectiveMBR.MAGIC = b"\x1d\x9a"`. -/
def ProtectiveMBR.MAGIC : List Nat := [0x1d, 0x9a]

/-! ## Derived partition values -/

/-- `Partition.Zero()`: all fields unpacked from zero bytes. -/
def Partition.Zero : Partition :=
  { TypeGUID := GUID.mk (List.replicate 16 0), UniqueGUID := GUID.mk (List.replicate 16 0),
    FirstLBA := 0, LastLBA := 0, Attributes := PartitionAttributes.mk 0, Names := [] }

def Partition.IsUnused (p : Partition) : Bool := p.TypeGUID == GPT.TYPE_GUID_UNUSED

def Partition.IsChromeOSKernel (p : Partition) : Bool :=
  p.TypeGUID == GPT.TYPE_GUID_CHROMEOS_KERNEL

/-- `blocks = LastLBA - FirstLBA + 1` (on an allocated partition
`FirstLBA ≤ LastLBA`; `Nat` subtraction truncates where Python would
go negative). -/
def Partition.blocks (p : Partition) : Nat := p.LastLBA - p.FirstLBA + 1

/-! ## The GPT aggregate -/

def GPT.DEFAULT_BLOCK_SIZE : Nat := 512

structure GPT where
  pmbr : Option ProtectiveMBR
  header : Header
  partitions : List Partition
  block_size : Nat
  is_secondary : Bool
deriving DecidableEq

/-- The location loop of `LoadFromFile` for one candidate block size: read
a header from `block_size * 1` (`SEEK_SET`) and then from `-block_size`
relative to the end, returning the first with a valid 8-byte signature;
the boolean is `is_secondary` (`i != 0`, i.e. found at the backup
location). -/
def GPT.ProbeLocations (img : Image) (block_size : Nat) : Option (Header × Bool) :=
  let h1 := Header.Unpack (readBytes img (block_size * 1) 92)
  if h1.Signature ∈ Header.SIGNATURES then some (h1, false)
  else
    let h2 := Header.Unpack (readBytes img (img.size - block_size) 92)
    if h2.Signature ∈ Header.SIGNATURES then some (h2, true)
    else none

/-- The block-size loop of `LoadFromFile`: try each candidate block size in
order, fixing the first for which some location has a valid signature. -/
def GPT.ProbeBlockSizes : List Nat → Image → Option (Header × Nat × Bool)
  | [], _ => none
  | bs :: rest, img =>
      match GPT.ProbeLocations img bs with
      | some (h, sec) => some (h, bs, sec)
      | none => GPT.ProbeBlockSizes rest img

/-- The partition-array read of `LoadFromFile`: `PartitionEntriesNumber`
entries of 128 bytes each, read sequentially from the given offset. -/
def GPT.ReadPartitions (img : Image) : Nat → Nat → List Partition
  | 0, _ => []
  | n + 1, off => Partition.Unpack (readBytes img off 128) :: GPT.ReadPartitions img n (off + 128)

/-- `GPT.LoadFromFile` for a regular image file (for a block device the
candidate list is the device-reported logical block size instead of
`[512, 4096]`). -/
def GPT.LoadFromFile (img : Image) : Except String GPT :=
  let pmbr := ProtectiveMBR.Unpack (readBytes img 0 512)
  let pmbrOpt := if pmbr.Signature = ProtectiveMBR.SIGNATURE ∧ pmbr.Magic = ProtectiveMBR.MAGIC
    then some pmbr else none
  match GPT.ProbeBlockSizes [GPT.DEFAULT_BLOCK_SIZE, 4096] img with
  | none => Except.error "Invalid signature in GPT header."
  | some (header, block_size, is_secondary) =>
      let partitions := GPT.ReadPartitions img header.PartitionEntriesNumber
        (block_size * header.PartitionEntriesStartingLBA)
      Except.ok { pmbr := pmbrOpt, header := header, partitions := partitions,
                  block_size := block_size, is_secondary := is_secondary }

/-- `Header.Create(size, block_size, pad_blocks, part_entries)`; the CRC32
fields stay zero (the constructor zeroes unset fields) and must be updated
explicitly later.  `DiskGUID` is random in the source (`GUID.Random()`) and
is taken as a parameter here. -/
def Header.Create (size block_size : Nat) (diskGuid : GUID) (pad_blocks part_entries : Nat) :
    Header :=
  let part_entry_size := 128
  let parts_lba := 2 + pad_blocks
  let parts_bytes := part_entries * part_entry_size
  let parts_blocks := parts_bytes / block_size + (if parts_bytes % block_size = 0 then 0 else 1)
  { Signature := Header.SIGNATURE_EFI_PART
    Revision := [0, 0, 1, 0]
    HeaderSize := 92
    CRC32 := 0
    Reserved := List.replicate 4 0
    CurrentLBA := 1
    BackupLBA := size / block_size - 1
    FirstUsableLBA := parts_lba + parts_blocks
    LastUsableLBA := size / block_size - parts_blocks - parts_lba
    DiskGUID := diskGuid
    PartitionEntriesStartingLBA := parts_lba
    PartitionEntriesNumber := part_entries
    PartitionEntrySize := part_entry_size
    PartitionArrayCRC32 := 0 }

/-- `Header.UpdateChecksum`: zero the CRC32 field, then set it to the CRC32
of the packed header. -/
def Header.UpdateChecksum (h : Header) : Header :=
  let h0 := { h with CRC32 := 0 }
  { h0 with CRC32 := crc32 h0.Pack }

/-- `GPT.Create(image_name, size, block_size, pad_blocks)`: fresh header
plus all-unused partition entries (the per-entry `image`/`number` meta
attributes are not part of the record values). -/
def GPT.Create (size block_size pad_blocks : Nat) (diskGuid : GUID) : GPT :=
  let header := Header.Create size block_size diskGuid pad_blocks 128
  { pmbr := none, header := header,
    partitions := List.replicate header.PartitionEntriesNumber Partition.Zero,
    block_size := block_size, is_secondary := false }

def GPT.GetUsedPartitions (gpt : GPT) : List Partition :=
  gpt.partitions.filter (fun p => !p.IsUnused)

/-- `GetMaxUsedLBA`: Python `max` over the (non-negative) `LastLBA`s of a
non-empty list is the fold of `Nat.max` from 0. -/
def GPT.GetMaxUsedLBA (gpt : GPT) : Nat :=
  let parts := gpt.GetUsedPartitions
  if parts.isEmpty then gpt.header.FirstUsableLBA - 1
  else (parts.map Partition.LastLBA).foldl Nat.max 0

/-- `GetPartitionTableBlocks(header)` (ceiling division). -/
def GPT.GetPartitionTableBlocks (gpt : GPT) (header : Header) : Nat :=
  let size := header.PartitionEntrySize * header.PartitionEntriesNumber
  size / gpt.block_size + (if size % gpt.block_size = 0 then 0 else 1)

/-- `GetPartition(number)`: 1-based bounds-checked lookup. -/
def GPT.GetPartition (gpt : GPT) (number : Nat) : Except String Partition :=
  if 0 < number ∧ number ≤ gpt.partitions.length then
    Except.ok (gpt.partitions.getD (number - 1) Partition.Zero)
  else Except.error "Invalid partition number."

/-- `ExpandPartition(number, reserved_blocks)`; returns
`(old_blocks, new_blocks)` and the updated table. -/
def GPT.ExpandPartition (gpt : GPT) (number reserved_blocks : Nat) :
    Except String (Nat × Nat × GPT) :=
  match gpt.GetPartition number with
  | Except.error e => Except.error e
  | Except.ok p =>
      if p.IsUnused then Except.error "Partition is unused."
      else
        let max_used_lba := gpt.GetMaxUsedLBA
        if max_used_lba > p.LastLBA then
          Except.error "Cannot expand partition because it is not allocated at last."
        else
          let old_blocks := p.blocks
          let p2 := { p with LastLBA := gpt.header.LastUsableLBA - reserved_blocks }
          let new_blocks := p2.blocks
          Except.ok (old_blocks, new_blocks,
            { gpt with partitions := gpt.partitions.set (number - 1) p2 })

/-- `CheckIntegrity`'s inner `CheckOutsideUsable(name, lba, outside_entries)`
(the `name` argument only feeds the error message). -/
def GPT.CheckOutsideUsable (header : Header) (entries_first_lba entries_last_lba : Nat)
    (lba : Nat) (outside_entries : Bool) : Except String Unit :=
  if lba < 1 then Except.error "should not live in this LBA."
  else if lba > max header.BackupLBA header.CurrentLBA then
    Except.error "should not be larger than BackupLBA."
  else if header.FirstUsableLBA ≤ lba ∧ lba ≤ header.LastUsableLBA then
    Except.error "should not be included in usable LBAs."
  else if outside_entries ∧ entries_first_lba ≤ lba ∧ lba ≤ entries_last_lba then
    Except.error "should be outside partition entries."
  else Except.ok ()

/-- The adjacent-pair overlap sweep of `CheckIntegrity` over the sorted
`(FirstLBA, LastLBA, partition)` list. -/
def GPT.CheckOverlap : List (Nat × Nat × Partition) → Except String Unit
  | a :: b :: rest =>
      if a.2.1 ≥ b.1 then Except.error "Overlap in partition entries."
      else GPT.CheckOverlap (b :: rest)
  | _ => Except.ok ()

/-- The first/last partition bound checks of `CheckIntegrity`. -/
def GPT.CheckBounds (header : Header) (lba_list : List (Nat × Nat × Partition)) :
    Except String Unit :=
  match lba_list with
  | [] => Except.ok ()
  | t :: _ =>
      if t.2.2.FirstLBA < header.FirstUsableLBA then
        Except.error "Partition must not go earlier than FirstUsableLBA."
      else match lba_list.getLast? with
        | none => Except.ok ()
        | some u =>
            if u.2.2.LastLBA > header.LastUsableLBA then
              Except.error "Partition must not go further than LastUsableLBA."
            else Except.ok ()

/-- The non-CRC part of `GPT.CheckIntegrity`: header/entries placement,
pairwise overlap of the used partitions (stable sort by `FirstLBA`, as
Python `list.sort(key=t[0])`), first/last partition bounds, and
`UniqueGUID` distinctness (`len(set(...)) != len(parts)`). -/
def GPT.CheckIntegrityLayout (gpt : GPT) : Except String Unit := do
  let header := gpt.header
  let entries_first_lba := header.PartitionEntriesStartingLBA
  let entries_last_lba := entries_first_lba + gpt.GetPartitionTableBlocks header - 1
  GPT.CheckOutsideUsable header entries_first_lba entries_last_lba header.CurrentLBA true
  GPT.CheckOutsideUsable header entries_first_lba entries_last_lba header.BackupLBA true
  GPT.CheckOutsideUsable header entries_first_lba entries_last_lba entries_first_lba false
  GPT.CheckOutsideUsable header entries_first_lba entries_last_lba entries_last_lba false
  let parts := gpt.GetUsedPartitions
  let lba_list := List.insertionSort (fun a b => a.1 ≤ b.1)
    (parts.map (fun p => (p.FirstLBA, p.LastLBA, p)))
  GPT.CheckOverlap lba_list
  GPT.CheckBounds header lba_list
  if (parts.map Partition.UniqueGUID).dedup.length ≠ parts.length then
    Except.error "Partition UniqueGUIDs are duplicated."
  else Except.ok ()

/-- `GPT.CheckIntegrity`: the placement / overlap / bounds / GUID checks
followed by the comparison of both stored CRC32 fields against
recomputation, in source order. -/
def GPT.CheckIntegrity (gpt : GPT) : Except String Unit := do
  gpt.CheckIntegrityLayout
  if crc32 (packTable gpt.partitions) ≠ gpt.header.PartitionArrayCRC32 then
    Except.error "GPT Header PartitionArrayCRC32 does not match."
  else if gpt.header.UpdateChecksum.CRC32 ≠ gpt.header.CRC32 then
    Except.error "GPT Header CRC32 does not match."
  else Except.ok ()

/-- `GPT.UpdateChecksum`: `PartitionArrayCRC32` from the packed table, then
the header CRC32. -/
def GPT.UpdateChecksum (gpt : GPT) : GPT :=
  let parts := packTable gpt.partitions
  { gpt with header := ({ gpt.header with PartitionArrayCRC32 := crc32 parts }).UpdateChecksum }

/-- `GetBackupHeader(header)`. -/
def GPT.GetBackupHeader (gpt : GPT) (header : Header) : Header :=
  let partitions_starting_lba := header.BackupLBA - gpt.GetPartitionTableBlocks header
  ({ header with
      BackupLBA := header.CurrentLBA
      CurrentLBA := header.BackupLBA
      PartitionEntriesStartingLBA := partitions_starting_lba }).UpdateChecksum

/-- `GPT.WriteToFile`: update checksums, check integrity, write the primary
header and table, and (unless this instance is a backup copy) a mirrored
backup table and header.  Returns the updated instance and image. -/
def GPT.WriteToFile (gpt : GPT) (img : Image) : Except String (GPT × Image) :=
  let gpt := gpt.UpdateChecksum
  match gpt.CheckIntegrity with
  | Except.error e => Except.error e
  | Except.ok _ =>
      let parts_blob := packTable gpt.partitions
      let header := gpt.header
      let img := writeData img (header.CurrentLBA * gpt.block_size) header.Pack
      let img := writeData img (header.PartitionEntriesStartingLBA * gpt.block_size) parts_blob
      if gpt.is_secondary then Except.ok (gpt, img)
      else
        let backup_header := gpt.GetBackupHeader gpt.header
        let img := writeData img (backup_header.PartitionEntriesStartingLBA * gpt.block_size)
          parts_blob
        let img := writeData img (backup_header.CurrentLBA * gpt.block_size) backup_header.Pack
        Except.ok (gpt, img)

/-- `GPT.WriteProtectiveMBR(image, create, bootcode, boot_guid)`: read the
current PMBR from LBA 0, optionally regenerate the fixed-format fields,
optionally replace boot code (truncated to the 424-byte slot) and boot
GUID, and write the 512-byte sector back. -/
def GPT.WriteProtectiveMBR (img : Image) (create : Bool) (bootcode : Option (List Nat))
    (boot_guid : Option GUID) : ProtectiveMBR × Image :=
  let pmbr := ProtectiveMBR.Unpack (readBytes img 0 512)
  let pmbr := if create then
      let legacy_sectors := min 0x100000000 (img.size / GPT.DEFAULT_BLOCK_SIZE) - 1
      let part0 := [0x00, 0x00, 0x02, 0x00, 0xee, 0xff, 0xff, 0xff, 0x01, 0x00, 0x00, 0x00] ++
        packLE 4 legacy_sectors
      let part1 := List.replicate 16 0
      { pmbr with BootGUID := GPT.TYPE_GUID_UNUSED, DiskID := 0, Magic := ProtectiveMBR.MAGIC,
                  LegacyPart0 := part0, LegacyPart1 := part1, LegacyPart2 := part1,
                  LegacyPart3 := part1, Signature := ProtectiveMBR.SIGNATURE }
    else pmbr
  let pmbr := match bootcode with
    | none => pmbr
    | some bc => { pmbr with BootCode := bc.take 424 }
  let pmbr := match boot_guid with
    | none => pmbr
    | some g => { pmbr with BootGUID := g }
  (pmbr, writeData img 0 pmbr.Pack)

/-! ## GUID display (`GUID.__str__`, upper case) -/

def GUID.hexDigitUpper (n : Nat) : Char :=
  if n < 10 then Char.ofNat (48 + n) else Char.ofNat (55 + n)

def GUID.hexByte (b : Nat) : List Char :=
  [GUID.hexDigitUpper (b / 16 % 16), GUID.hexDigitUpper (b % 16)]

/-- The upper-case textual form of a GUID from its `bytes_le` (the first
three groups are little-endian, the last two big-endian). -/
def GUID.str (g : GUID) : String :=
  let bi := fun i => g.bytes_le.getD i 0
  String.mk (GUID.hexByte (bi 3) ++ GUID.hexByte (bi 2) ++ GUID.hexByte (bi 1) ++
    GUID.hexByte (bi 0) ++ ['-'] ++ GUID.hexByte (bi 5) ++ GUID.hexByte (bi 4) ++ ['-'] ++
    GUID.hexByte (bi 7) ++ GUID.hexByte (bi 6) ++ ['-'] ++ GUID.hexByte (bi 8) ++
    GUID.hexByte (bi 9) ++ ['-'] ++ GUID.hexByte (bi 10) ++ GUID.hexByte (bi 11) ++
    GUID.hexByte (bi 12) ++ GUID.hexByte (bi 13) ++ GUID.hexByte (bi 14) ++
    GUID.hexByte (bi 15))

/-- Sanity check of the GUID formatter against the ChromeOS kernel type GUID. -/
theorem GUID.str_kernel :
    GUID.str GPT.TYPE_GUID_CHROMEOS_KERNEL = "FE3A2A5D-4F32-41A7-B725-ACCC3285A309" := by
  decide

/-! ## Command layer: `Add` -/

/-- The parsed arguments of the `add` command.  `begin_lba` is the `-b`
(`begin`) option; `label` is the `-l` string as UTF-16 code units. -/
structure AddArgs where
  number : Option Nat
  begin_lba : Option Nat
  sectors : Option Nat
  type_guid : Option GUID
  unique_guid : Option GUID
  label : Option (List Nat)
  successful : Option Nat
  tries : Option Nat
  priority : Option Nat
  required : Option Nat
  legacy_boot : Option Nat
  raw_16 : Option Nat

/-- An `AddArgs` with no options given. -/
def AddArgs.none_ : AddArgs :=
  { number := none, begin_lba := none, sectors := none, type_guid := none,
    unique_guid := none, label := none, successful := none, tries := none,
    priority := none, required := none, legacy_boot := none, raw_16 := none }

/-- `Add.Execute`: load, pick the partition (default: first unused),
initialize it when new (`FirstLBA = GetMaxUsedLBA()+1`,
`LastLBA = LastUsableLBA`, random `UniqueGUID` - here the `randomGuid`
parameter - and type `data`), apply the optional attribute flags and field
arguments, re-zero the entry if its type ends up unused, and write back. -/
def GPT.AddExecute (img : Image) (args : AddArgs) (randomGuid : GUID) :
    Except String (GPT × Image) :=
  match GPT.LoadFromFile img with
  | Except.error e => Except.error e
  | Except.ok gpt =>
    let numberO := match args.number with
      | some n => some n
      | none => ((List.range gpt.partitions.length).find?
          (fun i => (gpt.partitions.getD i Partition.Zero).IsUnused)).map (fun i => i + 1)
    match numberO with
    | none => Except.error "StopIteration"
    | some number =>
      match gpt.GetPartition number with
      | Except.error e => Except.error e
      | Except.ok part =>
        let is_new_part := part.IsUnused
        let part := if is_new_part then
            { Partition.Zero with
                FirstLBA := gpt.GetMaxUsedLBA + 1
                LastLBA := gpt.header.LastUsableLBA
                UniqueGUID := randomGuid
                TypeGUID := GPT.TYPE_GUID_LINUX_DATA }
          else part
        let attrs := part.Attributes
        let attrs := match args.legacy_boot with | none => attrs | some v => attrs.setLegacyBoot v
        let attrs := match args.required with | none => attrs | some v => attrs.setRequired v
        let attrs := match args.priority with | none => attrs | some v => attrs.setPriority v
        let attrs := match args.tries with | none => attrs | some v => attrs.setTries v
        let attrs := match args.successful with | none => attrs | some v => attrs.setSuccessful v
        let attrs := match args.raw_16 with | none => attrs | some v => attrs.setRaw16 v
        let first_lba := args.begin_lba.getD part.FirstLBA
        let part := { part with
            Names := args.label.getD part.Names
            FirstLBA := first_lba
            LastLBA := first_lba - 1 + args.sectors.getD part.blocks
            TypeGUID := args.type_guid.getD part.TypeGUID
            UniqueGUID := args.unique_guid.getD part.UniqueGUID
            Attributes := attrs }
        let part := if part.IsUnused then Partition.Zero else part
        let gpt := { gpt with partitions := gpt.partitions.set (number - 1) part }
        gpt.WriteToFile img

/-! ## Command layer: `Show` (single-partition format output) -/

/-- The format flags of `show` (`GPTCommands.FORMAT_ARGS`) plus `-n` and
`-i`. -/
structure ShowArgs where
  numeric : Bool
  quick : Bool
  number : Option Nat
  begin : Bool
  size : Bool
  type : Bool
  unique : Bool
  label : Bool
  Successful : Bool
  Tries : Bool
  Priority : Bool
  Legacy : Bool
  Attribute : Bool

def ShowArgs.IsFormatArgsSpecified (args : ShowArgs) : Bool :=
  args.begin || args.size || args.type || args.unique || args.label || args.Successful ||
  args.Tries || args.Priority || args.Legacy || args.Attribute

/-- Names as a Python string would print. -/
def namesToString (us : List Nat) : String := String.mk (us.map Char.ofNat)

/-- `FormatTypeGUID(p)`: the `TYPE_GUID_MAP` alias when it exists and
`--numeric` is not given, otherwise `str(guid)`. -/
def GPT.FormatTypeGUID (numeric : Bool) (p : Partition) : String :=
  if !numeric then
    match GPT.TYPE_GUID_MAP.find? (fun kv => kv.1 == p.TypeGUID) with
    | some kv => kv.2
    | none => GUID.str p.TypeGUID
  else GUID.str p.TypeGUID

/-- `ApplyFormatArgs(p)`, with every printed value rendered as its printed
string. -/
def GPT.ApplyFormatArgs (args : ShowArgs) (p : Partition) : Option String :=
  if args.begin then some (toString p.FirstLBA)
  else if args.size then some (toString p.blocks)
  else if args.type then some (GPT.FormatTypeGUID args.numeric p)
  else if args.unique then some (GUID.str p.UniqueGUID)
  else if args.label then some (namesToString p.Names)
  else if args.Successful then some (toString p.Attributes.successful)
  else if args.Priority then some (toString p.Attributes.priority)
  else if args.Tries then some (toString p.Attributes.tries)
  else if args.Legacy then some (toString p.Attributes.legacy_boot)
  else if args.Attribute then
    some ("[" ++ String.mk (Nat.toDigits 16 (p.Attributes.raw >>> 48)) ++ "]")
  else none

/-- `Show.Execute` restricted to the scripting path `-i N <format flag>`:
after the guard checks, every table-listing branch is skipped
(`IsFormatArgsSpecified()` holds), the loop prints `ApplyFormatArgs(p)` for
the partition with `p.number == N`, and `CheckIntegrity` runs last. -/
def GPT.ShowFormatExecute (img : Image) (args : ShowArgs) : Except String (List String) :=
  match GPT.LoadFromFile img with
  | Except.error e => Except.error e
  | Except.ok gpt =>
    if ¬ (args.IsFormatArgsSpecified ∧ args.number.isSome) then
      Except.error "Format arguments must be used with -i."
    else
      match args.number with
      | none => Except.error "Format arguments must be used with -i."
      | some n =>
        if ¬ (0 < n ∧ n ≤ gpt.header.PartitionEntriesNumber) then
          Except.error "Invalid partition number."
        else
          let prints := (List.range gpt.partitions.length).filterMap (fun i =>
            if i + 1 = n then GPT.ApplyFormatArgs args (gpt.partitions.getD i Partition.Zero)
            else none)
          match gpt.CheckIntegrity with
          | Except.error e => Except.error e
          | Except.ok _ => Except.ok prints

/-! ## Command layer: `Prioritize`

`Prioritize.Execute` filters the ChromeOS kernel partitions, sorts them by
`priority` descending (Python `list.sort` is stable), groups consecutive
equal priorities (`itertools.groupby` on the sorted list, collected into a
dict whose keys are then unique), optionally promotes a target partition
(with or without its priority group of "friends"), drops the priority-0
group, and assigns new priorities counting down from `highest`, resetting
`tries` to 15 for entries that enter the active set with `tries == 0` and
`successful == 0`.

Partitions are tracked by their 0-based index in `gpt.partitions`
(standing in for Python object identity); the dict of groups is an
association list with unique keys, where assignment to a fresh key
appends, as dict insertion does. -/

/-- A `(key, run)` list of consecutive equal-priority runs, as
`itertools.groupby(parts, key=priority)`; the recursion is driven by a
list-length fuel so that the function reduces structurally
(`groupRuns_cons` below recovers the natural defining equation). -/
def groupRunsF : Nat → List (Nat × Partition) → List (Nat × List (Nat × Partition))
  | _, [] => []
  | 0, _ :: _ => []
  | fuel + 1, (i, p) :: rest =>
      let k := p.Attributes.priority
      (k, (i, p) :: rest.takeWhile (fun q => q.2.Attributes.priority = k)) ::
        groupRunsF fuel (rest.dropWhile (fun q => q.2.Attributes.priority = k))

def groupRuns (l : List (Nat × Partition)) : List (Nat × List (Nat × Partition)) :=
  groupRunsF l.length l

theorem groupRunsF_eq_fuel : ∀ (f1 f2 : Nat) (l : List (Nat × Partition)),
    l.length ≤ f1 → l.length ≤ f2 → groupRunsF f1 l = groupRunsF f2 l := by
  intro f1
  induction f1 with
  | zero =>
      intro f2 l h1 h2
      rw [List.eq_nil_of_length_eq_zero (Nat.le_zero.mp h1)]
      cases f2 <;> rfl
  | succ n ih =>
      intro f2 l h1 h2
      match l, f2 with
      | [], g => cases g <;> rfl
      | (i, p) :: rest, g + 1 =>
          simp only [groupRunsF]
          congr 1
          have hr : rest.length ≤ n := by simpa using h1
          have hg : rest.length ≤ g := by simpa using h2
          exact ih g _ (le_trans (List.dropWhile_sublist _).length_le hr)
            (le_trans (List.dropWhile_sublist _).length_le hg)

theorem groupRuns_cons (i : Nat) (p : Partition) (rest : List (Nat × Partition)) :
    groupRuns ((i, p) :: rest) =
      (p.Attributes.priority, (i, p) :: rest.takeWhile
          (fun q => q.2.Attributes.priority = p.Attributes.priority)) ::
        groupRuns (rest.dropWhile
          (fun q => q.2.Attributes.priority = p.Attributes.priority)) := by
  show groupRunsF (rest.length + 1) _ = _
  simp only [groupRunsF]
  congr 1
  exact groupRunsF_eq_fuel rest.length _ _ (List.dropWhile_sublist _).length_le le_rfl

def dictKeys (d : List (Nat × List (Nat × Partition))) : List Nat := d.map Prod.fst

def dictGet (d : List (Nat × List (Nat × Partition))) (k : Nat) :
    Option (List (Nat × Partition)) :=
  (d.find? (fun kv => kv.1 == k)).map Prod.snd

/-- `dict.pop(k)` (the keys are unique). -/
def dictPop (d : List (Nat × List (Nat × Partition))) (k : Nat) :
    List (Nat × List (Nat × Partition)) :=
  d.filter (fun kv => kv.1 != k)

/-- `d[k] = v`: update in place, or append (dict insertion order). -/
def dictSet (d : List (Nat × List (Nat × Partition))) (k : Nat)
    (v : List (Nat × Partition)) : List (Nat × List (Nat × Partition)) :=
  if d.any (fun kv => kv.1 == k) then
    d.map (fun kv => if kv.1 == k then (k, v) else kv)
  else d ++ [(k, v)]

/-- The inner loop body `for p in groups[pri]` of the priority assignment:
skip when the priority is unchanged, otherwise set it and reset `tries`
to 15 when `tries < 1` and not `successful`. -/
def prioritizeApplyRun (new_priority : Nat) :
    List Partition → List (Nat × Partition) → List Partition
  | partitions, [] => partitions
  | partitions, (idx, _) :: rest =>
      let p := partitions.getD idx Partition.Zero
      let attrs := p.Attributes
      let partitions :=
        if attrs.priority = new_priority then partitions
        else
          let attrs := attrs.setPriority new_priority
          let attrs := if attrs.tries < 1 ∧ attrs.successful = 0 then attrs.setTries 15
            else attrs
          partitions.set idx { p with Attributes := attrs }
      prioritizeApplyRun new_priority partitions rest

/-- `for i, pri in enumerate(prios): ...` with
`new_priority = max(1, highest - i)`. -/
def prioritizeAssign (partitions : List Partition) (prios : List Nat)
    (groups : List (Nat × List (Nat × Partition))) (highest : Nat) : List Partition :=
  prios.enum.foldl
    (fun ps ipri => prioritizeApplyRun (max 1 (highest - ipri.1)) ps
      ((dictGet groups ipri.2).getD []))
    partitions

/-- The parsed arguments of `prioritize`. -/
structure PrioritizeArgs where
  priority : Option Nat
  number : Option Nat
  friends : Bool

/-- `Prioritize.Execute` (without the final `WriteToFile`, which does not
change the partition array). -/
def GPT.PrioritizeExecute (gpt : GPT) (args : PrioritizeArgs) : Except String GPT :=
  let parts := gpt.partitions.enum.filter (fun ip => ip.2.IsChromeOSKernel)
  let sorted := List.insertionSort
    (fun a b : Nat × Partition => b.2.Attributes.priority ≤ a.2.Attributes.priority) parts
  let groups0 := groupRuns sorted
  let groupsE : Except String (List (Nat × List (Nat × Partition))) :=
    match args.number with
    | none => Except.ok groups0
    | some number =>
        if number = 0 then Except.ok groups0
        else match gpt.GetPartition number with
          | Except.error e => Except.error e
          | Except.ok p =>
              if ¬ p.IsChromeOSKernel then Except.error "is not a ChromeOS kernel."
              else
                let pri := p.Attributes.priority
                match dictGet groups0 pri with
                | none => Except.error "KeyError"
                | some friends =>
                    let groups := dictPop groups0 pri
                    match (dictKeys groups).max? with
                    | none => Except.error "ValueError: max() arg is an empty sequence"
                    | some mx =>
                        let new_pri := mx + 1
                        if args.friends then Except.ok (dictSet groups new_pri friends)
                        else
                          let friends2 := friends.eraseP (fun q => q.1 == number - 1)
                          let groups := dictSet groups new_pri [(number - 1, p)]
                          if friends2.isEmpty then Except.ok groups
                          else Except.ok (dictSet groups pri friends2)
  match groupsE with
  | Except.error e => Except.error e
  | Except.ok groups =>
      let groups := if (dictKeys groups).contains 0 then dictPop groups 0 else groups
      let prios := List.insertionSort (fun a b : Nat => b ≤ a) (dictKeys groups)
      let hp := match args.priority with
        | none => prios.length
        | some 0 => prios.length
        | some k => k
      let highest := min hp 0xf
      Except.ok { gpt with partitions := prioritizeAssign gpt.partitions prios groups highest }

/-! ## Command layer: `Find` -/

/-- The parsed arguments of `find` (the `-M` content-match option is not
modelled); `explicit_drive` records whether a DRIVE argument was given. -/
structure FindArgs where
  type_guid : Option GUID
  unique_guid : Option GUID
  label : Option (List Nat)
  numeric : Bool
  single_match : Bool
  explicit_drive : Bool

/-- `Unmatch(a, b)`: `a is not None and a != b`. -/
def GPT.Unmatch {α : Type} [DecidableEq α] (a : Option α) (b : α) : Bool :=
  match a with
  | none => false
  | some x => x ≠ b

/-- The inner partition loop of `Find.Execute` on one decoded table: the
1-based numbers of the used partitions matching all given criteria. -/
def GPT.FindMatches (gpt : GPT) (args : FindArgs) : List Nat :=
  (List.range gpt.partitions.length).filterMap (fun i =>
    let p := gpt.partitions.getD i Partition.Zero
    if p.IsUnused || GPT.Unmatch args.label p.Names ||
        GPT.Unmatch args.unique_guid p.UniqueGUID ||
        GPT.Unmatch args.type_guid p.TypeGUID then none
    else some (i + 1))

/-- The drive loop of `Find.Execute`.  Each drive is represented by the
result of `GPT.LoadFromFile` on it.  The local variable `gpt` is carried
across iterations (`Option GPT`, initially unbound): on a decode failure
with an explicit drive the error propagates; when scanning all drives the
failure is caught, but the loop body then still runs, scanning the
PREVIOUS drive's table again (or raising `UnboundLocalError` when the
first drive fails), because the handler does not skip to the next drive. -/
def GPT.FindLoop (args : FindArgs) :
    List (Except String GPT) → Option GPT → Nat → Except String Nat
  | [], _, found => Except.ok found
  | r :: rest, gptVar, found =>
      match r with
      | Except.ok g => GPT.FindLoop args rest (some g) (found + (GPT.FindMatches g args).length)
      | Except.error e =>
          if args.explicit_drive then Except.error e
          else match gptVar with
            | none => Except.error "UnboundLocalError: gpt"
            | some g =>
                GPT.FindLoop args rest (some g) (found + (GPT.FindMatches g args).length)

/-- `Find.Execute`: returns `(found, exit_code)`. -/
def GPT.FindExecute (drives : List (Except String GPT)) (args : FindArgs) :
    Except String (Nat × Nat) :=
  if ¬ (args.type_guid.isSome || args.unique_guid.isSome || args.label.isSome) then
    Except.error "You must specify at least one of -t, -u, or -l"
  else match GPT.FindLoop args drives none 0 with
    | Except.error e => Except.error e
    | Except.ok found =>
        Except.ok (found, if found < 1 ∨ (args.single_match ∧ found > 1) then 1 else 0)

/-! ## Claims -/

/-- C10: for every 64-bit attributes word and every `PartitionAttributes`
bit field (successful, tries, priority, legacy_boot, required), setting the
field to a value `v` with `v & mask == v` makes a later read of the field
return `v`, and leaves every bit outside the field's shifted mask
unchanged. -/
theorem claim_C10 : ∀ sm ∈ attrFields, ∀ raw : Nat, raw < 2 ^ 64 → ∀ v : Nat,
    v &&& sm.2 = v →
    bitGet (bitSet raw sm.1 sm.2 v) sm.1 sm.2 = v ∧
    (∀ i : Nat, (sm.2 <<< sm.1).testBit i = false →
      (bitSet raw sm.1 sm.2 v).testBit i = raw.testBit i) := by
  intro sm hsm raw hraw v hv
  have hms : sm.2 <<< sm.1 < 2 ^ 64 := by
    fin_cases hsm <;> decide
  exact ⟨bitGet_bitSet _ _ _ _ hms hv, fun i hi => bitSet_frame _ _ _ _ hraw hms hv i hi⟩

/-- Witness for C10 at the `priority` field (shift 48, mask 0xf). -/
theorem claim_C10_witness :
    ((48, 0xf) : Nat × Nat) ∈ attrFields ∧ (0x123456789ABCDEF0 : Nat) < 2 ^ 64 ∧
    (5 : Nat) &&& 0xf = 5 ∧
    bitGet (bitSet 0x123456789ABCDEF0 48 0xf 5) 48 0xf = 5 :=
  ⟨by decide, by decide, by decide,
    (claim_C10 (48, 0xf) (by decide) 0x123456789ABCDEF0 (by decide) 5 (by decide)).1⟩

set_option maxRecDepth 40000 in
/-- C6 counterexample: for an image of exactly 2^32 sectors,
`WriteProtectiveMBR(create=True)` stores sector count `2^32 - 1` in the
covering legacy entry, while the claimed formula
`min(2^32 - 1, image sectors) - 1` gives `2^32 - 2`. -/
theorem claim_C6_counterexample :
    unpackLE (((((GPT.WriteProtectiveMBR
        (Image.mk (0x100000000 * 512) (fun _ => 0)) true none none).1).LegacyPart0).drop
        12).take 4) = 0x100000000 - 1 ∧
    unpackLE (((((GPT.WriteProtectiveMBR
        (Image.mk (0x100000000 * 512) (fun _ => 0)) true none none).1).LegacyPart0).drop
        12).take 4) ≠
      min (0x100000000 - 1) ((0x100000000 * 512) / GPT.DEFAULT_BLOCK_SIZE) - 1 := by
  constructor
  · rfl
  · decide

/-- C6 (amended): when `WriteProtectiveMBR` is called with `create=True` on
an image of at least one sector, the sector count stored little-endian at
offset 12 of the covering legacy entry equals
`min(2^32, image sectors) - 1`, where the image sector count is the image
size divided by the default block size 512. -/
theorem claim_C6 (img : Image) (h : 512 ≤ img.size) :
    unpackLE (((((GPT.WriteProtectiveMBR img true none none).1).LegacyPart0).drop 12).take 4) =
      min 0x100000000 (img.size / GPT.DEFAULT_BLOCK_SIZE) - 1 := by
  have hsec : 1 ≤ img.size / GPT.DEFAULT_BLOCK_SIZE := by
    simp only [GPT.DEFAULT_BLOCK_SIZE]
    omega
  have hls : min 0x100000000 (img.size / GPT.DEFAULT_BLOCK_SIZE) - 1 < 256 ^ 4 := by
    have h1 : min 0x100000000 (img.size / GPT.DEFAULT_BLOCK_SIZE) ≤ 0x100000000 :=
      min_le_left _ _
    norm_num
    omega
  show unpackLE ((([0x00, 0x00, 0x02, 0x00, 0xee, 0xff, 0xff, 0xff, 0x01, 0x00, 0x00, 0x00] ++
      packLE 4 (min 0x100000000 (img.size / GPT.DEFAULT_BLOCK_SIZE) - 1)).drop 12).take 4) = _
  rw [List.drop_left' (by decide)]
  rw [List.take_of_length_le (by simp)]
  exact unpackLE_packLE _ _ hls

/-- Witness for C6 on a 2-sector image. -/
theorem claim_C6_witness :
    512 ≤ (Image.mk 1024 (fun _ => 0)).size ∧
    unpackLE (((((GPT.WriteProtectiveMBR (Image.mk 1024 (fun _ => 0)) true
        none none).1).LegacyPart0).drop 12).take 4) =
      min 0x100000000 ((Image.mk 1024 (fun _ => 0)).size / GPT.DEFAULT_BLOCK_SIZE) - 1 :=
  ⟨by decide, claim_C6 (Image.mk 1024 (fun _ => 0)) (by decide)⟩

/-- C2: for every valid record value (Header, Partition entry, Protective
MBR, full partition table), unpacking the packed bytes yields the record
back: `decode(encode(x)) == x`. -/
theorem claim_C2 :
    (∀ h : Header, h.valid → Header.Unpack h.Pack = h) ∧
    (∀ p : Partition, p.valid → Partition.Unpack p.Pack = p) ∧
    (∀ m : ProtectiveMBR, m.valid → ProtectiveMBR.Unpack m.Pack = m) ∧
    (∀ ps : List Partition, (∀ p ∈ ps, p.valid) →
      unpackTable ps.length (packTable ps) = ps) :=
  ⟨headerUnpack_Pack, partitionUnpack_Pack, pmbrUnpack_Pack, unpackTable_packTable⟩

set_option maxRecDepth 40000 in
/-- Witness for C2 on concrete records: a freshly created header, the zero
partition, an all-zero PMBR sector, and a one-entry table. -/
theorem claim_C2_witness :
    ((Header.Create 5120 512 (GUID.mk (List.replicate 16 0)) 0 1).valid ∧
      Header.Unpack (Header.Create 5120 512 (GUID.mk (List.replicate 16 0)) 0 1).Pack =
        Header.Create 5120 512 (GUID.mk (List.replicate 16 0)) 0 1) ∧
    (Partition.Zero.valid ∧ Partition.Unpack Partition.Zero.Pack = Partition.Zero) ∧
    ((ProtectiveMBR.Unpack (List.replicate 512 0)).valid ∧
      ProtectiveMBR.Unpack (ProtectiveMBR.Unpack (List.replicate 512 0)).Pack =
        ProtectiveMBR.Unpack (List.replicate 512 0)) ∧
    ((∀ p ∈ [Partition.Zero], p.valid) ∧
      unpackTable [Partition.Zero].length (packTable [Partition.Zero]) = [Partition.Zero]) :=
  ⟨⟨by decide, claim_C2.1 _ (by decide)⟩,
   ⟨by decide, claim_C2.2.1 _ (by decide)⟩,
   ⟨by decide, claim_C2.2.2.1 _ (by decide)⟩,
   ⟨by decide, claim_C2.2.2.2 _ (by decide)⟩⟩

/-- C8: evaluation of `Find.Execute` at the failing input.  The drive list
holds each drive's decode result; `gptA` has exactly one matching ChromeOS
kernel partition.  When scanning all drives (no explicit drive) and a later
drive fails to decode, the handler ignores the failure but does not skip
the drive, so the loop body re-scans the previous drive's table: the one
real match is counted twice and `-1` (single-match) wrongly fails with
exit code 1.  When the first drive fails, the loop body reads the unbound
local `gpt` (an `UnboundLocalError`, not a tolerated skip).  With an
explicitly named drive the decode failure propagates, as the claim states. -/
theorem claim_C8_bug :
    (GPT.FindExecute
        [Except.ok (GPT.mk none (Header.Create 5120 512 (GUID.mk (List.replicate 16 0)) 0 1)
          [Partition.mk GPT.TYPE_GUID_CHROMEOS_KERNEL (GUID.mk (List.replicate 16 0))
            3 4 (PartitionAttributes.mk 0) []] 512 false),
         Except.error "Invalid signature in GPT header."]
        (FindArgs.mk (some GPT.TYPE_GUID_CHROMEOS_KERNEL) none none true true false) =
      Except.ok (2, 1)) ∧
    (GPT.FindExecute
        [Except.error "Invalid signature in GPT header.",
         Except.ok (GPT.mk none (Header.Create 5120 512 (GUID.mk (List.replicate 16 0)) 0 1)
          [Partition.mk GPT.TYPE_GUID_CHROMEOS_KERNEL (GUID.mk (List.replicate 16 0))
            3 4 (PartitionAttributes.mk 0) []] 512 false)]
        (FindArgs.mk (some GPT.TYPE_GUID_CHROMEOS_KERNEL) none none true true false) =
      Except.error "UnboundLocalError: gpt") ∧
    (GPT.FindExecute [Except.error "Invalid signature in GPT header."]
        (FindArgs.mk (some GPT.TYPE_GUID_CHROMEOS_KERNEL) none none true true true) =
      Except.error "Invalid signature in GPT header.") := by
  refine ⟨?_, ?_, ?_⟩ <;> rfl

/-- Modelled from the spec: the probing order the specification describes
for one candidate block size - check the backup location (last block)
for a valid signature BEFORE the primary location (second block). -/
def GPT.ProbeLocationsSpec (img : Image) (block_size : Nat) : Option (Header × Bool) :=
  let h2 := Header.Unpack (readBytes img (img.size - block_size) 92)
  if h2.Signature ∈ Header.SIGNATURES then some (h2, true)
  else
    let h1 := Header.Unpack (readBytes img (block_size * 1) 92)
    if h1.Signature ∈ Header.SIGNATURES then some (h1, false)
    else none

/-- Modelled from the spec: the block-size loop with the spec's
backup-before-primary order per candidate. -/
def GPT.ProbeBlockSizesSpec : List Nat → Image → Option (Header × Nat × Bool)
  | [], _ => none
  | bs :: rest, img =>
      match GPT.ProbeLocationsSpec img bs with
      | some (h, sec) => some (h, bs, sec)
      | none => GPT.ProbeBlockSizesSpec rest img

/-- C1 counterexample: an image holding a valid "EFI PART" signature both
at the primary location (LBA 1, offset 512) and at the backup location
(last block, offset 1536).  The code finds the PRIMARY copy first
(`is_secondary = false`), while the claimed backup-before-primary order
would find the backup copy (`is_secondary = true`). -/
theorem claim_C1_counterexample :
    (GPT.ProbeBlockSizes [GPT.DEFAULT_BLOCK_SIZE, 4096]
        (Image.mk 2048 (fun i =>
          if 512 ≤ i ∧ i < 520 then [69, 70, 73, 32, 80, 65, 82, 84].getD (i - 512) 0
          else if 1536 ≤ i ∧ i < 1544 then [69, 70, 73, 32, 80, 65, 82, 84].getD (i - 1536) 0
          else 0))).map (fun r => (r.2.1, r.2.2)) = some (512, false) ∧
    (GPT.ProbeBlockSizesSpec [GPT.DEFAULT_BLOCK_SIZE, 4096]
        (Image.mk 2048 (fun i =>
          if 512 ≤ i ∧ i < 520 then [69, 70, 73, 32, 80, 65, 82, 84].getD (i - 512) 0
          else if 1536 ≤ i ∧ i < 1544 then [69, 70, 73, 32, 80, 65, 82, 84].getD (i - 1536) 0
          else 0))).map (fun r => (r.2.1, r.2.2)) = some (512, true) := by
  refine ⟨?_, ?_⟩ <;> rfl

/-- C1 (amended): with no block device hint, the header probe of
`LoadFromFile` tries, in this order, (block size 512, primary at LBA 1),
(512, backup at the last block), (4096, primary), (4096, backup); the
first location with a valid 8-byte signature ("EFI PART" or "CHROMEOS")
fixes the block size and whether the loaded copy is primary or secondary
(secondary exactly when found at a backup location).  Within each
candidate block size the PRIMARY location is checked before the backup;
what is checked before trying a larger block size is the backup of the
smaller candidate. -/
theorem claim_C1 (img : Image) :
    GPT.ProbeBlockSizes [GPT.DEFAULT_BLOCK_SIZE, 4096] img =
      [(512, false), (512, true), (4096, false), (4096, true)].findSome?
        (fun c : Nat × Bool =>
          let off := if c.2 then img.size - c.1 else c.1 * 1
          let h := Header.Unpack (readBytes img off 92)
          if h.Signature ∈ Header.SIGNATURES then some (h, c.1, c.2) else none) := by
  simp only [GPT.ProbeBlockSizes, GPT.ProbeLocations, GPT.DEFAULT_BLOCK_SIZE,
    List.findSome?_cons, List.findSome?_nil]
  split_ifs <;> simp_all

theorem le_foldl_max_acc (l : List Nat) (acc : Nat) : acc ≤ l.foldl Nat.max acc := by
  induction l generalizing acc with
  | nil => simp
  | cons a l ih =>
      rw [List.foldl_cons]
      exact le_trans (Nat.le_max_left acc a) (ih (Nat.max acc a))

theorem le_foldl_max (l : List Nat) (acc x : Nat) (hx : x ∈ l) : x ≤ l.foldl Nat.max acc := by
  induction l generalizing acc with
  | nil => simp at hx
  | cons a l ih =>
      rw [List.foldl_cons]
      rcases List.mem_cons.1 hx with rfl | hx
      · exact le_trans (Nat.le_max_right acc x) (le_foldl_max_acc l _)
      · exact ih _ hx

theorem foldl_max_le (l : List Nat) (acc b : Nat) (hacc : acc ≤ b) (h : ∀ x ∈ l, x ≤ b) :
    l.foldl Nat.max acc ≤ b := by
  induction l generalizing acc with
  | nil => simpa using hacc
  | cons a l ih =>
      rw [List.foldl_cons]
      exact ih _ (Nat.max_le.2 ⟨hacc, h a (by simp)⟩) (fun x hx => h x (by simp [hx]))

/-- The property claim C4 asserts of `ExpandPartition` at a valid 1-based
partition number `number` (with `p` the partition at that number):
it fails when `p` is unused or some other allocated partition reaches
further; when `p` is the last allocated partition it succeeds and sets
`p.LastLBA` to `LastUsableLBA - reserved_blocks`; and with
`reserved_blocks = 0` a successful expansion never shrinks the partition
unless `LastUsableLBA` dropped below the old `LastLBA`. -/
def ExpandSpec (gpt : GPT) (number : Nat) : Prop :=
  (∀ r : Nat,
    ((gpt.partitions.getD (number - 1) Partition.Zero).IsUnused = true ∨
      ∃ q ∈ gpt.partitions, q.IsUnused = false ∧
        (gpt.partitions.getD (number - 1) Partition.Zero).LastLBA < q.LastLBA) →
    ∃ e, gpt.ExpandPartition number r = Except.error e) ∧
  (∀ r : Nat,
    (gpt.partitions.getD (number - 1) Partition.Zero).IsUnused = false →
    (∀ q ∈ gpt.partitions, q.IsUnused = false →
      q.LastLBA ≤ (gpt.partitions.getD (number - 1) Partition.Zero).LastLBA) →
    r ≤ gpt.header.LastUsableLBA →
    ∃ old_blocks new_blocks gpt2,
      gpt.ExpandPartition number r = Except.ok (old_blocks, new_blocks, gpt2) ∧
      (gpt2.partitions.getD (number - 1) Partition.Zero).LastLBA =
        gpt.header.LastUsableLBA - r) ∧
  (∀ old_blocks new_blocks gpt2,
    gpt.ExpandPartition number 0 = Except.ok (old_blocks, new_blocks, gpt2) →
    (gpt.partitions.getD (number - 1) Partition.Zero).LastLBA ≤ gpt.header.LastUsableLBA →
    old_blocks ≤ new_blocks)

/-- C4: `ExpandPartition` behaves as `ExpandSpec` describes at every valid
partition number. -/
theorem claim_C4 (gpt : GPT) (number : Nat)
    (hn : 0 < number ∧ number ≤ gpt.partitions.length) : ExpandSpec gpt number := by
  have hget : gpt.GetPartition number =
      Except.ok (gpt.partitions.getD (number - 1) Partition.Zero) := by
    simp [GPT.GetPartition, hn]
  have hmem : gpt.partitions.getD (number - 1) Partition.Zero ∈ gpt.partitions := by
    rw [List.getD_eq_getElem _ _ (by omega)]
    exact List.getElem_mem _
  refine ⟨?_, ?_, ?_⟩
  · -- (a) failure cases
    intro r hcase
    set p := gpt.partitions.getD (number - 1) Partition.Zero with hp
    simp only [GPT.ExpandPartition, hget]
    by_cases hu : p.IsUnused
    · simp [hu]
    · rcases hcase with hcase | ⟨q, hq, hqa, hql⟩
      · exact absurd hcase hu
      · have hqused : q ∈ gpt.GetUsedPartitions := by
          simp [GPT.GetUsedPartitions, List.mem_filter, hq, hqa]
        have hmax : q.LastLBA ≤ gpt.GetMaxUsedLBA := by
          simp only [GPT.GetMaxUsedLBA]
          rw [if_neg (by simp only [List.isEmpty_iff]; intro h; rw [h] at hqused; simp at hqused)]
          exact le_foldl_max _ _ _ (List.mem_map_of_mem _ hqused)
        simp only [Bool.not_eq_true] at hu
        rw [if_neg (by simp [hu])]
        rw [if_pos (by omega)]
        exact ⟨_, rfl⟩
  · -- (b) expanding the last allocated partition
    intro r hal hlast hr
    set p := gpt.partitions.getD (number - 1) Partition.Zero with hp
    have hpused : p ∈ gpt.GetUsedPartitions := by
      simp [GPT.GetUsedPartitions, List.mem_filter, hmem, hal]
    have hmax : gpt.GetMaxUsedLBA ≤ p.LastLBA := by
      simp only [GPT.GetMaxUsedLBA]
      rw [if_neg (by simp only [List.isEmpty_iff]; intro h; rw [h] at hpused; simp at hpused)]
      apply foldl_max_le _ _ _ (Nat.zero_le _)
      intro x hx
      rcases List.mem_map.1 hx with ⟨q, hq, rfl⟩
      rcases List.mem_filter.1 hq with ⟨hq1, hq2⟩
      exact hlast q hq1 (by simpa using hq2)
    simp only [GPT.ExpandPartition, hget]
    rw [if_neg (by simp [hal])]
    rw [if_neg (by omega)]
    refine ⟨_, _, _, rfl, ?_⟩
    have hlen : number - 1 < (gpt.partitions.set (number - 1)
        { p with LastLBA := gpt.header.LastUsableLBA - r }).length := by
      rw [List.length_set]
      omega
    rw [List.getD_eq_getElem _ _ hlen]
    simp
  · -- (c) reserved_blocks = 0 never shrinks unless the usable region shrank
    intro old_blocks new_blocks gpt2 hok hle
    set p := gpt.partitions.getD (number - 1) Partition.Zero with hp
    simp only [GPT.ExpandPartition, hget] at hok
    by_cases hu : p.IsUnused
    · simp [hu] at hok
    · rw [if_neg (by simp_all)] at hok
      by_cases hm : gpt.GetMaxUsedLBA > p.LastLBA
      · rw [if_pos hm] at hok
        simp at hok
      · rw [if_neg hm] at hok
        simp only [Except.ok.injEq, Prod.mk.injEq] at hok
        obtain ⟨h1, h2, _⟩ := hok
        subst h1
        subst h2
        simp only [Partition.blocks]
        omega

/-- Witness for C4 on a 2-entry table whose first partition is allocated. -/
theorem claim_C4_witness :
    (0 < 1 ∧ 1 ≤ (GPT.mk none (Header.Create 5120 512 (GUID.mk (List.replicate 16 0)) 0 1)
        [Partition.mk GPT.TYPE_GUID_LINUX_DATA (GUID.mk (List.replicate 16 0))
          3 4 (PartitionAttributes.mk 0) [], Partition.Zero] 512 false).partitions.length) ∧
    ExpandSpec (GPT.mk none (Header.Create 5120 512 (GUID.mk (List.replicate 16 0)) 0 1)
        [Partition.mk GPT.TYPE_GUID_LINUX_DATA (GUID.mk (List.replicate 16 0))
          3 4 (PartitionAttributes.mk 0) [], Partition.Zero] 512 false) 1 :=
  ⟨by decide, claim_C4 _ 1 (by decide)⟩

theorem GPT.CheckIntegrity_UpdateChecksum (gpt : GPT)
    (h : gpt.UpdateChecksum.CheckIntegrityLayout = Except.ok ()) :
    gpt.UpdateChecksum.CheckIntegrity = Except.ok () := by
  have h1 : crc32 (packTable gpt.UpdateChecksum.partitions) =
      gpt.UpdateChecksum.header.PartitionArrayCRC32 := rfl
  have h2 : gpt.UpdateChecksum.header.UpdateChecksum.CRC32 =
      gpt.UpdateChecksum.header.CRC32 := rfl
  unfold GPT.CheckIntegrity
  rw [h]
  simp only [bind, Except.bind, h1, h2, ne_eq, not_true_eq_false, if_false, ite_self]

theorem GPT.CheckIntegrity_ok (gpt : GPT) (h : gpt.CheckIntegrity = Except.ok ()) :
    gpt.CheckIntegrityLayout = Except.ok () ∧
    crc32 (packTable gpt.partitions) = gpt.header.PartitionArrayCRC32 := by
  unfold GPT.CheckIntegrity at h
  cases hl : gpt.CheckIntegrityLayout with
  | error e =>
      rw [hl] at h
      simp only [bind, Except.bind] at h
      exact Except.noConfusion h
  | ok u =>
      cases u
      rw [hl] at h
      simp only [bind, Except.bind] at h
      refine ⟨rfl, ?_⟩
      by_cases c1 : crc32 (packTable gpt.partitions) = gpt.header.PartitionArrayCRC32
      · exact c1
      · rw [if_pos c1] at h
        simp at h

theorem Header.valid_set_crc (h : Header) (hv : h.valid) (c : Nat) (hc : c < 256 ^ 4) :
    ({ h with CRC32 := c } : Header).valid := by
  obtain ⟨h1, h2, h3, h4, h5, _, h7, h8, h9, h10, h11, h12, h13, h14, h15, h16, h17⟩ := hv
  exact ⟨h1, h2, h3, h4, h5, hc, h7, h8, h9, h10, h11, h12, h13, h14, h15, h16, h17⟩

theorem Header.valid_set_pacrc (h : Header) (hv : h.valid) (c : Nat) (hc : c < 256 ^ 4) :
    ({ h with PartitionArrayCRC32 := c } : Header).valid := by
  obtain ⟨h1, h2, h3, h4, h5, h6, h7, h8, h9, h10, h11, h12, h13, h14, h15, h16, _⟩ := hv
  exact ⟨h1, h2, h3, h4, h5, h6, h7, h8, h9, h10, h11, h12, h13, h14, h15, h16, hc⟩

theorem Header.UpdateChecksum_valid (h : Header) (hv : h.valid) : h.UpdateChecksum.valid := by
  have h0v : ({ h with CRC32 := 0 } : Header).valid :=
    Header.valid_set_crc h hv 0 (by norm_num)
  have hb : crc32 ({ h with CRC32 := 0 } : Header).Pack < 256 ^ 4 := by
    have := crc32_lt _ (headerPack_lt _ h0v)
    norm_num at this ⊢
    exact this
  exact Header.valid_set_crc _ h0v _ hb

theorem GPT.UpdateChecksum_header_valid (gpt : GPT) (hv : gpt.header.valid)
    (hb : ∀ b ∈ packTable gpt.partitions, b < 256) :
    gpt.UpdateChecksum.header.valid := by
  show (({ gpt.header with
      PartitionArrayCRC32 := crc32 (packTable gpt.partitions) } : Header).UpdateChecksum).valid
  apply Header.UpdateChecksum_valid
  apply Header.valid_set_pacrc _ hv
  have := crc32_lt _ hb
  norm_num at this ⊢
  exact this

/-- `WriteToFile` on a non-secondary instance whose checksummed form passes
`CheckIntegrity`: the success case of the definition, spelled out. -/
theorem GPT.WriteToFile_ok (gpt : GPT) (img : Image)
    (hint : gpt.UpdateChecksum.CheckIntegrity = Except.ok ())
    (hsec : gpt.UpdateChecksum.is_secondary = false) :
    gpt.WriteToFile img = Except.ok (gpt.UpdateChecksum,
      writeData (writeData (writeData (writeData img
        (gpt.UpdateChecksum.header.CurrentLBA * gpt.UpdateChecksum.block_size)
        gpt.UpdateChecksum.header.Pack)
        (gpt.UpdateChecksum.header.PartitionEntriesStartingLBA * gpt.UpdateChecksum.block_size)
        (packTable gpt.UpdateChecksum.partitions))
        ((gpt.UpdateChecksum.GetBackupHeader gpt.UpdateChecksum.header).PartitionEntriesStartingLBA
          * gpt.UpdateChecksum.block_size)
        (packTable gpt.UpdateChecksum.partitions))
        ((gpt.UpdateChecksum.GetBackupHeader gpt.UpdateChecksum.header).CurrentLBA
          * gpt.UpdateChecksum.block_size)
        (gpt.UpdateChecksum.GetBackupHeader gpt.UpdateChecksum.header).Pack) := by
  simp only [GPT.WriteToFile, hint, hsec, Bool.false_eq_true, if_false]

set_option maxRecDepth 4000 in
/-- C3 (Scenario A): creating a GPT for a 100-block image with block size
512 (128 partition entries of 128 bytes each, no pad blocks), writing it to
the image, and loading it back yields a header with `FirstUsableLBA = 34`
and `BackupLBA = 99`.  The disk GUID is random in the source and universally
quantified here. -/
theorem claim_C3 (dg : GUID) (hdg : dg.valid) (base : Image) (hsz : base.size = 51200) :
    ∃ gpt2 img2 gpt3,
      (GPT.Create 51200 512 0 dg).WriteToFile base = Except.ok (gpt2, img2) ∧
      GPT.LoadFromFile img2 = Except.ok gpt3 ∧
      gpt3.header.FirstUsableLBA = 34 ∧ gpt3.header.BackupLBA = 99 := by
  clear hsz
  have hb : (GPT.Create 51200 512 0 dg).UpdateChecksum.block_size = 512 := rfl
  have hpes : (GPT.Create 51200 512 0 dg).UpdateChecksum.header.PartitionEntrySize = 128 := rfl
  have hpen : (GPT.Create 51200 512 0 dg).UpdateChecksum.header.PartitionEntriesNumber
      = 128 := rfl
  have htb : (GPT.Create 51200 512 0 dg).UpdateChecksum.GetPartitionTableBlocks
      (GPT.Create 51200 512 0 dg).UpdateChecksum.header = 32 := by
    simp only [GPT.GetPartitionTableBlocks, hb, hpes, hpen]
    norm_num
  have hpl : (GPT.Create 51200 512 0 dg).UpdateChecksum.header.PartitionEntriesStartingLBA
      = 2 := rfl
  have hcur : (GPT.Create 51200 512 0 dg).UpdateChecksum.header.CurrentLBA = 1 := rfl
  have hbk : (GPT.Create 51200 512 0 dg).UpdateChecksum.header.BackupLBA = 99 := rfl
  have hused : (GPT.Create 51200 512 0 dg).UpdateChecksum.GetUsedPartitions = [] := rfl
  have h1 : GPT.CheckOutsideUsable (GPT.Create 51200 512 0 dg).UpdateChecksum.header
      2 33 1 true = Except.ok () := rfl
  have h2 : GPT.CheckOutsideUsable (GPT.Create 51200 512 0 dg).UpdateChecksum.header
      2 33 99 true = Except.ok () := rfl
  have h3 : GPT.CheckOutsideUsable (GPT.Create 51200 512 0 dg).UpdateChecksum.header
      2 33 2 false = Except.ok () := rfl
  have h4 : GPT.CheckOutsideUsable (GPT.Create 51200 512 0 dg).UpdateChecksum.header
      2 33 33 false = Except.ok () := rfl
  have h5 : GPT.CheckOverlap [] = Except.ok () := rfl
  have h6 : GPT.CheckBounds (GPT.Create 51200 512 0 dg).UpdateChecksum.header []
      = Except.ok () := rfl
  have hlay : (GPT.Create 51200 512 0 dg).UpdateChecksum.CheckIntegrityLayout
      = Except.ok () := by
    simp only [GPT.CheckIntegrityLayout, htb, hpl, hcur, hbk, hused]
    norm_num [h1, h2, h3, h4, h5, h6, bind, Except.bind]
  have hint : (GPT.Create 51200 512 0 dg).UpdateChecksum.CheckIntegrity = Except.ok () :=
    GPT.CheckIntegrity_UpdateChecksum _ hlay
  have hpb_lt : ∀ b ∈ packTable (GPT.Create 51200 512 0 dg).partitions, b < 256 := by
    apply packTable_lt
    intro p hp
    have hrep : (GPT.Create 51200 512 0 dg).partitions = List.replicate 128 Partition.Zero := rfl
    rw [hrep] at hp
    rw [List.eq_of_mem_replicate hp]
    decide
  have hg0v : (GPT.Create 51200 512 0 dg).header.valid := by
    refine ⟨?_, ?_, ?_, ?_, ?_, ?_, ?_, ?_, ?_, ?_, ?_, ?_, hdg, ?_, ?_, ?_, ?_⟩ <;>
      simp only [GPT.Create, Header.Create] <;> decide
  have hv1 : (GPT.Create 51200 512 0 dg).UpdateChecksum.header.valid :=
    GPT.UpdateChecksum_header_valid _ hg0v hpb_lt
  have hsec : (GPT.Create 51200 512 0 dg).UpdateChecksum.is_secondary = false := rfl
  have e3 : ((GPT.Create 51200 512 0 dg).UpdateChecksum.GetBackupHeader
      (GPT.Create 51200 512 0 dg).UpdateChecksum.header).PartitionEntriesStartingLBA = 67 := by
    simp only [GPT.GetBackupHeader, Header.UpdateChecksum, htb, hbk]
  have e4 : ((GPT.Create 51200 512 0 dg).UpdateChecksum.GetBackupHeader
      (GPT.Create 51200 512 0 dg).UpdateChecksum.header).CurrentLBA = 99 := rfl
  have hwrite : (GPT.Create 51200 512 0 dg).WriteToFile base = Except.ok
      ((GPT.Create 51200 512 0 dg).UpdateChecksum,
        writeData (writeData (writeData (writeData base 512
            (GPT.Create 51200 512 0 dg).UpdateChecksum.header.Pack) 1024
            (packTable (GPT.Create 51200 512 0 dg).UpdateChecksum.partitions)) 34304
            (packTable (GPT.Create 51200 512 0 dg).UpdateChecksum.partitions)) 50688
          ((GPT.Create 51200 512 0 dg).UpdateChecksum.GetBackupHeader
            (GPT.Create 51200 512 0 dg).UpdateChecksum.header).Pack) := by
    rw [GPT.WriteToFile_ok _ base hint hsec, hb, hcur, hpl, e3, e4]
  have hlPB : (packTable (GPT.Create 51200 512 0 dg).UpdateChecksum.partitions).length
      = 16384 := by
    have hrep : (GPT.Create 51200 512 0 dg).UpdateChecksum.partitions =
        List.replicate 128 Partition.Zero := rfl
    rw [hrep, packTable_length]
    simp
  have hreadH : readBytes (writeData (writeData (writeData (writeData base 512
        (GPT.Create 51200 512 0 dg).UpdateChecksum.header.Pack) 1024
        (packTable (GPT.Create 51200 512 0 dg).UpdateChecksum.partitions)) 34304
        (packTable (GPT.Create 51200 512 0 dg).UpdateChecksum.partitions)) 50688
        ((GPT.Create 51200 512 0 dg).UpdateChecksum.GetBackupHeader
          (GPT.Create 51200 512 0 dg).UpdateChecksum.header).Pack) (512 * 1) 92 =
      (GPT.Create 51200 512 0 dg).UpdateChecksum.header.Pack := by
    rw [readBytes_writeData_miss _ _ _ _ _ (Or.inl (by norm_num))]
    rw [readBytes_writeData_miss _ _ _ _ _ (Or.inl (by norm_num))]
    rw [readBytes_writeData_miss _ _ _ _ _ (Or.inl (by norm_num))]
    rw [show (512 : Nat) * 1 = 512 by norm_num]
    exact readBytes_writeData_hit _ _ _ _ (headerPack_length _)
  have hprobe : GPT.ProbeBlockSizes [GPT.DEFAULT_BLOCK_SIZE, 4096]
      (writeData (writeData (writeData (writeData base 512
        (GPT.Create 51200 512 0 dg).UpdateChecksum.header.Pack) 1024
        (packTable (GPT.Create 51200 512 0 dg).UpdateChecksum.partitions)) 34304
        (packTable (GPT.Create 51200 512 0 dg).UpdateChecksum.partitions)) 50688
        ((GPT.Create 51200 512 0 dg).UpdateChecksum.GetBackupHeader
          (GPT.Create 51200 512 0 dg).UpdateChecksum.header).Pack) =
      some ((GPT.Create 51200 512 0 dg).UpdateChecksum.header, 512, false) := by
    simp only [GPT.ProbeBlockSizes, GPT.ProbeLocations, GPT.DEFAULT_BLOCK_SIZE]
    rw [hreadH, headerUnpack_Pack _ hv1]
    rw [if_pos (show (GPT.Create 51200 512 0 dg).UpdateChecksum.header.Signature ∈
        Header.SIGNATURES by
      have hs : (GPT.Create 51200 512 0 dg).UpdateChecksum.header.Signature =
          Header.SIGNATURE_EFI_PART := rfl
      rw [hs]
      simp [Header.SIGNATURES])]
  have hload : ∃ gpt3, GPT.LoadFromFile
      (writeData (writeData (writeData (writeData base 512
        (GPT.Create 51200 512 0 dg).UpdateChecksum.header.Pack) 1024
        (packTable (GPT.Create 51200 512 0 dg).UpdateChecksum.partitions)) 34304
        (packTable (GPT.Create 51200 512 0 dg).UpdateChecksum.partitions)) 50688
        ((GPT.Create 51200 512 0 dg).UpdateChecksum.GetBackupHeader
          (GPT.Create 51200 512 0 dg).UpdateChecksum.header).Pack) = Except.ok gpt3 ∧
      gpt3.header = (GPT.Create 51200 512 0 dg).UpdateChecksum.header := by
    simp only [GPT.LoadFromFile, hprobe]
    exact ⟨_, rfl, rfl⟩
  obtain ⟨gpt3, hl, hh⟩ := hload
  refine ⟨_, _, gpt3, hwrite, hl, ?_, ?_⟩
  · rw [hh]
    exact rfl
  · rw [hh]
    exact hbk

/-- Witness for C3 at the all-zero disk GUID and the all-zero 51200-byte
image. -/
theorem claim_C3_witness :
    (GUID.mk (List.replicate 16 0)).valid ∧
    (Image.mk 51200 (fun _ => 0)).size = 51200 ∧
    (∃ gpt2 img2 gpt3,
      (GPT.Create 51200 512 0 (GUID.mk (List.replicate 16 0))).WriteToFile
          (Image.mk 51200 (fun _ => 0)) = Except.ok (gpt2, img2) ∧
      GPT.LoadFromFile img2 = Except.ok gpt3 ∧
      gpt3.header.FirstUsableLBA = 34 ∧ gpt3.header.BackupLBA = 99) :=
  ⟨by decide, rfl,
    claim_C3 (GUID.mk (List.replicate 16 0)) (by decide) (Image.mk 51200 (fun _ => 0)) rfl⟩

theorem GPT.CheckIntegrity_crc_error (gpt : GPT)
    (h : crc32 (packTable gpt.partitions) ≠ gpt.header.PartitionArrayCRC32) :
    ∃ e, gpt.CheckIntegrity = Except.error e := by
  unfold GPT.CheckIntegrity
  cases hl : gpt.CheckIntegrityLayout with
  | error e =>
      refine ⟨e, ?_⟩
      simp only [hl, bind, Except.bind]
  | ok u =>
      cases u
      refine ⟨"GPT Header PartitionArrayCRC32 does not match.", ?_⟩
      simp only [hl, bind, Except.bind]
      rw [if_pos h]

/-- C5: an image whose primary stored header is any packed valid header with
a recognized signature but whose stored `PartitionArrayCRC32` disagrees with
the CRC32 of the partition table that will be read back: `LoadFromFile`
still succeeds with that header (only the 8-byte signature is validated),
and `CheckIntegrity` on the loaded result fails with an integrity error. -/
theorem claim_C5 (img : Image) (H : Header) (hv : H.valid)
    (hsig : H.Signature ∈ Header.SIGNATURES)
    (hread : readBytes img 512 92 = H.Pack)
    (hcrc : crc32 (packTable (GPT.ReadPartitions img H.PartitionEntriesNumber
        (512 * H.PartitionEntriesStartingLBA))) ≠ H.PartitionArrayCRC32) :
    ∃ gpt, GPT.LoadFromFile img = Except.ok gpt ∧ gpt.header = H ∧
      ∃ e, gpt.CheckIntegrity = Except.error e := by
  have hprobe : GPT.ProbeBlockSizes [GPT.DEFAULT_BLOCK_SIZE, 4096] img
      = some (H, 512, false) := by
    simp only [GPT.ProbeBlockSizes, GPT.ProbeLocations, GPT.DEFAULT_BLOCK_SIZE]
    rw [show (512 : Nat) * 1 = 512 from by norm_num, hread, headerUnpack_Pack _ hv]
    rw [if_pos hsig]
  simp only [GPT.LoadFromFile, hprobe]
  exact ⟨_, rfl, rfl, GPT.CheckIntegrity_crc_error _ hcrc⟩

/-- Witness for C5: a 100-block all-zero image holding one packed header at
LBA 1 with an empty partition table (`PartitionEntriesNumber = 0`) and a
corrupted stored `PartitionArrayCRC32` of 1 (the CRC32 of the empty table
is 0). -/
theorem claim_C5_witness :
    (Header.mk Header.SIGNATURE_EFI_PART [0, 0, 1, 0] 92 0 [0, 0, 0, 0] 1 99 34 66
        (GUID.mk (List.replicate 16 0)) 2 0 128 1).valid ∧
    (Header.mk Header.SIGNATURE_EFI_PART [0, 0, 1, 0] 92 0 [0, 0, 0, 0] 1 99 34 66
        (GUID.mk (List.replicate 16 0)) 2 0 128 1).Signature ∈ Header.SIGNATURES ∧
    readBytes (writeData (Image.mk 51200 (fun _ => 0)) 512
        (Header.mk Header.SIGNATURE_EFI_PART [0, 0, 1, 0] 92 0 [0, 0, 0, 0] 1 99 34 66
          (GUID.mk (List.replicate 16 0)) 2 0 128 1).Pack) 512 92
      = (Header.mk Header.SIGNATURE_EFI_PART [0, 0, 1, 0] 92 0 [0, 0, 0, 0] 1 99 34 66
          (GUID.mk (List.replicate 16 0)) 2 0 128 1).Pack ∧
    (∃ gpt, GPT.LoadFromFile (writeData (Image.mk 51200 (fun _ => 0)) 512
        (Header.mk Header.SIGNATURE_EFI_PART [0, 0, 1, 0] 92 0 [0, 0, 0, 0] 1 99 34 66
          (GUID.mk (List.replicate 16 0)) 2 0 128 1).Pack) = Except.ok gpt ∧
      gpt.header = Header.mk Header.SIGNATURE_EFI_PART [0, 0, 1, 0] 92 0 [0, 0, 0, 0] 1 99 34 66
          (GUID.mk (List.replicate 16 0)) 2 0 128 1 ∧
      ∃ e, gpt.CheckIntegrity = Except.error e) :=
  ⟨by decide, by decide,
    readBytes_writeData_hit _ _ _ _ (headerPack_length _),
    claim_C5 _ _ (by decide) (by decide)
      (readBytes_writeData_hit _ _ _ _ (headerPack_length _)) (by decide)⟩

/-! ## Claim C7: the concrete Add-then-Show chain -/

/-- A fixed disk GUID for the C7 scenario (random in the source). -/
def C7DiskGuid : GUID := GUID.mk (List.replicate 16 0)

/-- The `uuid.uuid4()` result handed to `Add` for the new partition. -/
def C7RandomGuid : GUID := GUID.mk (1 :: List.replicate 15 0)

/-- A fresh 2056-block GPT whose table holds a single entry. -/
def C7Base : GPT :=
  GPT.mk none (Header.Create 1052672 512 C7DiskGuid 0 1) [Partition.Zero] 512 false

/-- The all-zero backing image of `C7Base`. -/
def C7Image0 : Image := Image.mk 1052672 (fun _ => 0)

/-- `add -t kernel -s 2048` as parsed arguments. -/
def C7AddArgs : AddArgs :=
  { AddArgs.none_ with sectors := some 2048, type_guid := some GPT.TYPE_GUID_CHROMEOS_KERNEL }

/-- `show -i 1 -t`, with or without `-n`. -/
def C7ShowArgs (numeric : Bool) : ShowArgs :=
  ShowArgs.mk numeric false (some 1) false false true false false false false false false false

/-- Write the fresh table, run Add, then Show (`-t`, and `-t -n`), also
returning the type GUID that Add assigned to partition 1. -/
def C7Run : Except String (GUID × List String × List String) :=
  match C7Base.WriteToFile C7Image0 with
  | Except.error e => Except.error e
  | Except.ok (_, img1) =>
    match GPT.AddExecute img1 C7AddArgs C7RandomGuid with
    | Except.error e => Except.error e
    | Except.ok (gpt2, img2) =>
      match GPT.ShowFormatExecute img2 (C7ShowArgs false),
            GPT.ShowFormatExecute img2 (C7ShowArgs true) with
      | Except.ok s0, Except.ok s1 =>
          Except.ok ((gpt2.partitions.getD 0 Partition.Zero).TypeGUID, s0, s1)
      | Except.error e, _ => Except.error e
      | _, Except.error e => Except.error e

set_option maxRecDepth 200000 in
set_option maxHeartbeats 8000000 in
/-- Counterexample to C7: in the concrete Add-then-Show chain `C7Run`, the
`show -i 1 -t` output (without `-n`) is the `TYPE_GUID_MAP` alias
`"ChromeOS kernel"`, not the GUID string
`FE3A2A5D-4F32-41A7-B725-ACCC3285A309` the claim expects. -/
theorem claim_C7_counterexample :
    C7Run.map (fun r => r.2.1) = Except.ok ["ChromeOS kernel"] ∧
    ("ChromeOS kernel" : String) ≠ "FE3A2A5D-4F32-41A7-B725-ACCC3285A309" :=
  ⟨rfl, by decide⟩

set_option maxRecDepth 200000 in
set_option maxHeartbeats 8000000 in
/-- C7 (amended, Scenario B): running Add with type kernel and 2048 sectors
on an empty table allocates partition 1 with the ChromeOS kernel type GUID;
a subsequent Show with `-i 1 -t` prints the type alias `"ChromeOS kernel"`,
and Show with `-i 1 -t -n` (numeric) prints
`FE3A2A5D-4F32-41A7-B725-ACCC3285A309`. -/
theorem claim_C7 :
    C7Run = Except.ok (GPT.TYPE_GUID_CHROMEOS_KERNEL, ["ChromeOS kernel"],
      ["FE3A2A5D-4F32-41A7-B725-ACCC3285A309"]) := by
  rfl

/-! ### Lemmas about `groupRuns` -/

/-- Every member of a run of `groupRunsF` has the run's key as priority and
comes from the input list, and each run is a sublist of the input. -/
theorem groupRunsF_mem : ∀ (fuel : Nat) (l : List (Nat × Partition))
    (k : Nat) (run : List (Nat × Partition)), (k, run) ∈ groupRunsF fuel l →
    (∀ q ∈ run, q.2.Attributes.priority = k) ∧ List.Sublist run l ∧ run ≠ [] := by
  intro fuel
  induction fuel with
  | zero => intro l k run h; cases l <;> simp [groupRunsF] at h
  | succ n ih =>
      intro l k run h
      match l with
      | [] => simp [groupRunsF] at h
      | (i, p) :: rest =>
          simp only [groupRunsF, List.mem_cons] at h
          cases h with
          | inl h =>
              rw [Prod.mk.injEq] at h
              obtain ⟨hk, hrun⟩ := h
              subst hk
              subst hrun
              refine ⟨?_, List.Sublist.cons₂ _ (List.takeWhile_sublist _), by simp⟩
              intro q hq
              rcases List.mem_cons.mp hq with hq | hq
              · rw [hq]
              · simpa using List.mem_takeWhile_imp hq
          | inr h =>
              obtain ⟨hp, hsub, hne⟩ := ih _ _ _ h
              exact ⟨hp, hsub.trans ((List.dropWhile_sublist _).trans
                (List.sublist_cons_self _ _)), hne⟩

/-- In a descending-sorted list all of whose priorities are at most `k0`,
everything surviving `dropWhile (priority = k0)` has priority strictly
below `k0`. -/
theorem dropWhile_pri_lt (k0 : Nat) :
    ∀ (rest : List (Nat × Partition)),
    List.Pairwise (fun a b : Nat × Partition =>
      b.2.Attributes.priority ≤ a.2.Attributes.priority) rest →
    (∀ x ∈ rest, x.2.Attributes.priority ≤ k0) →
    ∀ x ∈ rest.dropWhile (fun q => q.2.Attributes.priority = k0),
      x.2.Attributes.priority < k0 := by
  intro rest
  induction rest with
  | nil => simp
  | cons h0 tail ih =>
      intro hpw hle x hx
      rw [List.pairwise_cons] at hpw
      by_cases hh : h0.2.Attributes.priority = k0
      · rw [List.dropWhile_cons_of_pos (by simpa using hh)] at hx
        exact ih hpw.2 (fun y hy => hle y (List.mem_cons_of_mem _ hy)) x hx
      · rw [List.dropWhile_cons_of_neg (by simpa using hh)] at hx
        rcases List.mem_cons.mp hx with rfl | hx2
        · exact lt_of_le_of_ne (hle x (List.mem_cons_self _ _)) hh
        · exact lt_of_le_of_lt (hpw.1 x hx2)
            (lt_of_le_of_ne (hle h0 (List.mem_cons_self _ _)) hh)

/-- On a descending-sorted list, any two entries of equal priority `k`
belong to one common `k`-keyed run of `groupRunsF`. -/
theorem groupRunsF_same_run : ∀ (fuel : Nat) (l : List (Nat × Partition)),
    l.length ≤ fuel →
    List.Pairwise (fun a b : Nat × Partition =>
      b.2.Attributes.priority ≤ a.2.Attributes.priority) l →
    ∀ q1 ∈ l, ∀ q2 ∈ l, q1.2.Attributes.priority = q2.2.Attributes.priority →
    ∃ run, (q1.2.Attributes.priority, run) ∈ groupRunsF fuel l ∧ q1 ∈ run ∧ q2 ∈ run := by
  intro fuel
  induction fuel with
  | zero =>
      intro l hl _ q1 h1
      rw [List.eq_nil_of_length_eq_zero (Nat.le_zero.mp hl)] at h1
      simp at h1
  | succ n ih =>
      intro l hl hpw q1 h1 q2 h2 hpri
      match l with
      | [] => simp at h1
      | (i, p) :: rest =>
          rw [List.pairwise_cons] at hpw
          have hle : ∀ x ∈ rest, x.2.Attributes.priority ≤ p.Attributes.priority :=
            fun x hx => hpw.1 x hx
          have hmemtake : ∀ q ∈ (i, p) :: rest,
              q.2.Attributes.priority = p.Attributes.priority →
              q ∈ (i, p) :: rest.takeWhile
                (fun q => q.2.Attributes.priority = p.Attributes.priority) := by
            intro q hq hqp
            rcases List.mem_cons.mp hq with rfl | hq2
            · exact List.mem_cons_self _ _
            · have := List.takeWhile_append_dropWhile
                (p := fun q : Nat × Partition =>
                  decide (q.2.Attributes.priority = p.Attributes.priority)) (l := rest)
              rw [← this] at hq2
              rcases List.mem_append.mp hq2 with hq3 | hq3
              · exact List.mem_cons_of_mem _ hq3
              · exact absurd hqp (Nat.ne_of_lt (dropWhile_pri_lt _ rest hpw.2 hle q hq3))
          by_cases hq1 : q1.2.Attributes.priority = p.Attributes.priority
          · refine ⟨(i, p) :: rest.takeWhile
                (fun q => q.2.Attributes.priority = p.Attributes.priority), ?_, ?_, ?_⟩
            · simp only [groupRunsF]
              rw [hq1]
              exact List.mem_cons_self _ _
            · exact hmemtake q1 h1 hq1
            · exact hmemtake q2 h2 (hpri ▸ hq1)
          · have hq2p : ¬ q2.2.Attributes.priority = p.Attributes.priority := hpri ▸ hq1
            have hdrop : ∀ q ∈ (i, p) :: rest,
                ¬ q.2.Attributes.priority = p.Attributes.priority →
                q ∈ rest.dropWhile
                  (fun q => q.2.Attributes.priority = p.Attributes.priority) := by
              intro q hq hqp
              rcases List.mem_cons.mp hq with rfl | hq2
              · exact absurd rfl hqp
              · have := List.takeWhile_append_dropWhile
                  (p := fun q : Nat × Partition =>
                    decide (q.2.Attributes.priority = p.Attributes.priority)) (l := rest)
                rw [← this] at hq2
                rcases List.mem_append.mp hq2 with hq3 | hq3
                · exact absurd (by simpa using List.mem_takeWhile_imp hq3) hqp
                · exact hq3
            obtain ⟨run, hmem, hr1, hr2⟩ := ih
              (rest.dropWhile (fun q => q.2.Attributes.priority = p.Attributes.priority))
              (le_trans (List.dropWhile_sublist _).length_le (by simpa using hl))
              (hpw.2.sublist (List.dropWhile_sublist _))
              q1 (hdrop q1 h1 hq1) q2 (hdrop q2 h2 hq2p) hpri
            refine ⟨run, ?_, hr1, hr2⟩
            simp only [groupRunsF]
            exact List.mem_cons_of_mem _ hmem

/-- On a descending-sorted list the keys of `groupRunsF` are distinct. -/
theorem groupRunsF_keys_nodup : ∀ (fuel : Nat) (l : List (Nat × Partition)),
    l.length ≤ fuel →
    List.Pairwise (fun a b : Nat × Partition =>
      b.2.Attributes.priority ≤ a.2.Attributes.priority) l →
    ((groupRunsF fuel l).map Prod.fst).Nodup := by
  intro fuel
  induction fuel with
  | zero =>
      intro l hl _
      rw [List.eq_nil_of_length_eq_zero (Nat.le_zero.mp hl)]
      simp [groupRunsF]
  | succ n ih =>
      intro l hl hpw
      match l with
      | [] => simp [groupRunsF]
      | (i, p) :: rest =>
          rw [List.pairwise_cons] at hpw
          simp only [groupRunsF, List.map_cons, List.nodup_cons]
          constructor
          · intro hk
            obtain ⟨kv, hkv, hfst⟩ := List.mem_map.mp hk
            obtain ⟨hkpri, hsub, hne⟩ := groupRunsF_mem n _ _ _ hkv
            obtain ⟨q, hq⟩ := List.exists_mem_of_ne_nil _ hne
            have hqd : q ∈ rest.dropWhile
                (fun q => q.2.Attributes.priority = p.Attributes.priority) :=
              hsub.mem hq
            have := dropWhile_pri_lt p.Attributes.priority rest hpw.2
              (fun x hx => hpw.1 x hx) q hqd
            rw [hkpri q hq, hfst] at this
            exact lt_irrefl _ this
          · exact ih _ (le_trans (List.dropWhile_sublist _).length_le (by simpa using hl))
              (hpw.2.sublist (List.dropWhile_sublist _))

/-- A successful `dictGet` returns the value of some entry with that key. -/
theorem dictGet_mem (d : List (Nat × List (Nat × Partition))) (k : Nat)
    (run : List (Nat × Partition)) (h : dictGet d k = some run) :
    ∃ kv ∈ d, kv.1 = k ∧ kv.2 = run := by
  unfold dictGet at h
  cases hf : d.find? (fun kv => kv.1 == k) with
  | none => rw [hf] at h; simp at h
  | some kv =>
      rw [hf] at h
      have h2 : kv.2 = run := by simpa using h
      exact ⟨kv, List.mem_of_find?_eq_some hf, by simpa using List.find?_some hf, h2⟩

/-- With distinct keys, `dictGet` finds exactly the entry that is present. -/
theorem dictGet_of_mem_nodup (d : List (Nat × List (Nat × Partition))) (k : Nat)
    (run : List (Nat × Partition)) (hn : (d.map Prod.fst).Nodup) (h : (k, run) ∈ d) :
    dictGet d k = some run := by
  induction d with
  | nil => simp at h
  | cons kv tail ih =>
      rw [List.map_cons, List.nodup_cons] at hn
      rcases List.mem_cons.mp h with heq | htail
      · unfold dictGet
        rw [List.find?_cons_of_pos _ (by simp [← heq])]
        simp [← heq]
      · have hne : ¬ (kv.1 == k) = true := by
          simp only [beq_iff_eq]
          intro hk
          exact hn.1 (hk ▸ List.mem_map.mpr ⟨(k, run), htail, rfl⟩)
        unfold dictGet
        have hb : (kv.1 == k) = false := by simpa using hne
        rw [List.find?_cons, hb]
        exact ih hn.2 htail

theorem dictPop_mem (d : List (Nat × List (Nat × Partition))) (k : Nat)
    (run : List (Nat × Partition)) (k0 : Nat) (hk : k ≠ k0) :
    (k, run) ∈ dictPop d k0 ↔ (k, run) ∈ d := by
  unfold dictPop
  rw [List.mem_filter]
  simp [hk]

theorem dictPop_keys_sublist (d : List (Nat × List (Nat × Partition))) (k0 : Nat) :
    List.Sublist ((dictPop d k0).map Prod.fst) (d.map Prod.fst) :=
  (List.filter_sublist d).map Prod.fst

/-- Setting a priority of at most 15 makes a later read return it. -/
theorem PartitionAttributes.priority_setPriority (a : PartitionAttributes) (v : Nat)
    (hv : v ≤ 15) : (a.setPriority v).priority = v := by
  show bitGet (bitSet a.raw 48 0xf v) 48 0xf = v
  apply bitGet_bitSet
  · decide
  · have h16 : v % 16 = v := Nat.mod_eq_of_lt (by omega)
    calc v &&& 0xf = v % 2 ^ 4 := by
          rw [show (0xf : Nat) = 2 ^ 4 - 1 by norm_num, Nat.and_pow_two_sub_one_eq_mod]
      _ = v := by norm_num [h16]

/-- Setting `tries` leaves the priority field unchanged. -/
theorem PartitionAttributes.priority_setTries (a : PartitionAttributes) (v : Nat) :
    (a.setTries v).priority = a.priority := by
  show bitGet (bitSet a.raw 52 0xf v) 48 0xf = bitGet a.raw 48 0xf
  apply Nat.eq_of_testBit_eq
  intro i
  simp only [bitGet, Nat.testBit_land, Nat.testBit_shiftRight]
  by_cases hm : (0xf : Nat).testBit i
  · have hi4 : i < 4 := by
      by_contra hge
      have h4i : 4 ≤ i := by omega
      have hlt : (0xf : Nat) < 2 ^ i := by
        calc (0xf : Nat) < 2 ^ 4 := by norm_num
          _ ≤ 2 ^ i := Nat.pow_le_pow_right (by norm_num) h4i
      rw [Nat.testBit_eq_false_of_lt hlt] at hm
      exact Bool.false_ne_true hm
    have h1 : ¬ 52 ≤ 48 + i := by omega
    have h2 : 48 + i < 64 := by omega
    simp only [bitSet, Nat.testBit_lor, Nat.testBit_land, Nat.testBit_xor,
      Nat.testBit_two_pow_sub_one, Nat.testBit_shiftLeft]
    simp [h1, h2]
  · simp [hm]

theorem getD_set_ne (ps : List Partition) (idx : Nat) (v : Partition) (i : Nat)
    (h : idx ≠ i) : (ps.set idx v).getD i Partition.Zero = ps.getD i Partition.Zero := by
  rw [List.getD_eq_getElem?_getD, List.getD_eq_getElem?_getD, List.getElem?_set_ne h]

theorem getD_set_self (ps : List Partition) (idx : Nat) (v : Partition)
    (h : idx < ps.length) : (ps.set idx v).getD idx Partition.Zero = v := by
  rw [List.getD_eq_getElem?_getD, List.getElem?_set_self]
  · rfl
  · exact h

theorem prioritizeApplyRun_length (np : Nat) :
    ∀ (run : List (Nat × Partition)) (ps : List Partition),
    (prioritizeApplyRun np ps run).length = ps.length := by
  intro run
  induction run with
  | nil => intro ps; rfl
  | cons q rest ih =>
      intro ps
      obtain ⟨idx, p⟩ := q
      simp only [prioritizeApplyRun]
      split
      · exact ih ps
      · rw [ih, List.length_set]

theorem prioritizeApplyRun_frame (np i : Nat) :
    ∀ (run : List (Nat × Partition)) (ps : List Partition),
    (∀ q ∈ run, q.1 ≠ i) →
    (prioritizeApplyRun np ps run).getD i Partition.Zero = ps.getD i Partition.Zero := by
  intro run
  induction run with
  | nil => intro ps _; rfl
  | cons q rest ih =>
      intro ps hq
      obtain ⟨idx, p⟩ := q
      have hidx : idx ≠ i := hq (idx, p) (List.mem_cons_self _ _)
      have hrest : ∀ q ∈ rest, q.1 ≠ i := fun q hq2 => hq q (List.mem_cons_of_mem _ hq2)
      simp only [prioritizeApplyRun]
      split
      · exact ih ps hrest
      · rw [ih _ hrest, getD_set_ne _ _ _ _ hidx]

theorem prioritizeApplyRun_effect (np i : Nat) (hnp : np ≤ 15) :
    ∀ (run : List (Nat × Partition)) (ps : List Partition) (p : Partition),
    (run.map Prod.fst).Nodup → (i, p) ∈ run → i < ps.length →
    ((prioritizeApplyRun np ps run).getD i Partition.Zero).Attributes.priority = np := by
  intro run
  induction run with
  | nil => intro ps p _ hmem; simp at hmem
  | cons q rest ih =>
      intro ps p hnd hmem hlen
      obtain ⟨idx, pq⟩ := q
      rw [List.map_cons, List.nodup_cons] at hnd
      rcases List.mem_cons.mp hmem with heq | htail
      · have hidx : idx = i := by
          have := congrArg Prod.fst heq
          simpa using this.symm
        subst hidx
        have hrest : ∀ q ∈ rest, q.1 ≠ idx := by
          intro q hq2 hq1
          exact hnd.1 (hq1 ▸ List.mem_map.mpr ⟨q, hq2, rfl⟩)
        simp only [prioritizeApplyRun]
        split
        · rw [prioritizeApplyRun_frame _ _ _ _ hrest]
          assumption
        · rw [prioritizeApplyRun_frame _ _ _ _ hrest, getD_set_self _ _ _ hlen]
          split
          · show (((ps.getD idx Partition.Zero).Attributes.setPriority np).setTries 15).priority
                = np
            rw [PartitionAttributes.priority_setTries,
              PartitionAttributes.priority_setPriority _ _ hnp]
          · show ((ps.getD idx Partition.Zero).Attributes.setPriority np).priority = np
            exact PartitionAttributes.priority_setPriority _ _ hnp
      · have hi_ne : idx ≠ i := by
          intro heq
          exact hnd.1 (heq ▸ List.mem_map.mpr ⟨(i, p), htail, rfl⟩)
        simp only [prioritizeApplyRun]
        split
        · exact ih ps p hnd.2 htail hlen
        · refine ih _ p hnd.2 htail ?_
          rw [List.length_set]
          exact hlen

theorem prioritizeAssign_length (partitions : List Partition) (prios : List Nat)
    (groups : List (Nat × List (Nat × Partition))) (highest : Nat) :
    (prioritizeAssign partitions prios groups highest).length = partitions.length := by
  unfold prioritizeAssign
  generalize prios.enum = l
  induction l generalizing partitions with
  | nil => rfl
  | cons t rest ih =>
      rw [List.foldl_cons, ih, prioritizeApplyRun_length]

/-- The priority assignment leaves every index untouched that appears in no
applied run. -/
theorem prioritizeAssign_frame (partitions : List Partition) (prios : List Nat)
    (groups : List (Nat × List (Nat × Partition))) (highest : Nat) (i : Nat)
    (h : ∀ pri ∈ prios, ∀ q ∈ (dictGet groups pri).getD [], q.1 ≠ i) :
    (prioritizeAssign partitions prios groups highest).getD i Partition.Zero
      = partitions.getD i Partition.Zero := by
  unfold prioritizeAssign
  have hmem : ∀ t ∈ prios.enum, t.2 ∈ prios := fun t ht => List.snd_mem_of_mem_enum ht
  generalize prios.enum = l at hmem
  induction l generalizing partitions with
  | nil => rfl
  | cons t rest ih =>
      rw [List.foldl_cons]
      rw [ih _ (fun u hu => hmem u (List.mem_cons_of_mem _ hu))]
      exact prioritizeApplyRun_frame _ _ _ _ (h t.2 (hmem t (List.mem_cons_self _ _)))

/-- Two indices that are always processed together (or both skipped) end the
priority assignment with equal priorities if they started equal. -/
theorem prioritizeAssign_pair (partitions : List Partition) (prios : List Nat)
    (groups : List (Nat × List (Nat × Partition))) (highest : Nat) (i j : Nat)
    (hhi : highest ≤ 15)
    (hleni : i < partitions.length) (hlenj : j < partitions.length)
    (hinit : (partitions.getD i Partition.Zero).Attributes.priority
      = (partitions.getD j Partition.Zero).Attributes.priority)
    (hsteps : ∀ pri ∈ prios,
      (∀ q ∈ (dictGet groups pri).getD [], q.1 ≠ i ∧ q.1 ≠ j) ∨
      ((((dictGet groups pri).getD []).map Prod.fst).Nodup ∧
        (∃ p, (i, p) ∈ (dictGet groups pri).getD []) ∧
        (∃ p, (j, p) ∈ (dictGet groups pri).getD []))) :
    ((prioritizeAssign partitions prios groups highest).getD i Partition.Zero).Attributes.priority
      = ((prioritizeAssign partitions prios groups highest).getD j
          Partition.Zero).Attributes.priority := by
  unfold prioritizeAssign
  have hmem : ∀ t ∈ prios.enum, t.2 ∈ prios := fun t ht => List.snd_mem_of_mem_enum ht
  generalize prios.enum = l at hmem
  induction l generalizing partitions with
  | nil => exact hinit
  | cons t rest ih =>
      rw [List.foldl_cons]
      have hnp : max 1 (highest - t.1) ≤ 15 :=
        max_le (by norm_num) (le_trans (Nat.sub_le _ _) hhi)
      have hrest : ∀ u ∈ rest, u.2 ∈ prios := fun u hu => hmem u (List.mem_cons_of_mem _ hu)
      rcases hsteps t.2 (hmem t (List.mem_cons_self _ _)) with havoid | ⟨hnd, ⟨pi, hpi⟩, ⟨pj, hpj⟩⟩
      · refine ih _ ?_ ?_ ?_ hrest
        · rw [prioritizeApplyRun_length]; exact hleni
        · rw [prioritizeApplyRun_length]; exact hlenj
        · rw [prioritizeApplyRun_frame _ _ _ _ (fun q hq => (havoid q hq).1),
            prioritizeApplyRun_frame _ _ _ _ (fun q hq => (havoid q hq).2)]
          exact hinit
      · refine ih _ ?_ ?_ ?_ hrest
        · rw [prioritizeApplyRun_length]; exact hleni
        · rw [prioritizeApplyRun_length]; exact hlenj
        · rw [prioritizeApplyRun_effect _ _ hnp _ _ pi hnd hpi hleni,
            prioritizeApplyRun_effect _ _ hnp _ _ pj hnd hpj hlenj]

instance instPriTotal : IsTotal (Nat × Partition)
    (fun a b => b.2.Attributes.priority ≤ a.2.Attributes.priority) :=
  ⟨fun _ _ => le_total _ _⟩

instance instPriTrans : IsTrans (Nat × Partition)
    (fun a b => b.2.Attributes.priority ≤ a.2.Attributes.priority) :=
  ⟨fun _ _ _ h1 h2 => le_trans h2 h1⟩

/-- C9 (amended): with no target partition (`-i` not given), Prioritize
leaves every ChromeOS-kernel partition of priority 0 entirely unchanged,
and kernel partitions that shared a (nonzero) priority before the run still
share a priority after it. -/
theorem claim_C9 (gpt : GPT) (args : PrioritizeArgs) (hno : args.number = none)
    (gpt2 : GPT) (h : GPT.PrioritizeExecute gpt args = Except.ok gpt2) :
    (∀ i, (gpt.partitions.getD i Partition.Zero).IsChromeOSKernel →
      (gpt.partitions.getD i Partition.Zero).Attributes.priority = 0 →
      gpt2.partitions.getD i Partition.Zero = gpt.partitions.getD i Partition.Zero) ∧
    (∀ i j, i < gpt.partitions.length → j < gpt.partitions.length →
      (gpt.partitions.getD i Partition.Zero).IsChromeOSKernel →
      (gpt.partitions.getD j Partition.Zero).IsChromeOSKernel →
      (gpt.partitions.getD i Partition.Zero).Attributes.priority =
        (gpt.partitions.getD j Partition.Zero).Attributes.priority →
      (gpt.partitions.getD i Partition.Zero).Attributes.priority ≠ 0 →
      (gpt2.partitions.getD i Partition.Zero).Attributes.priority =
        (gpt2.partitions.getD j Partition.Zero).Attributes.priority) := by
  set parts := gpt.partitions.enum.filter (fun ip => ip.2.IsChromeOSKernel) with hparts
  set sorted := List.insertionSort
    (fun a b : Nat × Partition => b.2.Attributes.priority ≤ a.2.Attributes.priority) parts
    with hsorted
  set groups0 := groupRuns sorted with hgroups0
  set groups1 := if (dictKeys groups0).contains 0 then dictPop groups0 0 else groups0
    with hgroups1
  set prios := List.insertionSort (fun a b : Nat => b ≤ a) (dictKeys groups1) with hprios
  set highest := min (match args.priority with
    | none => prios.length
    | some 0 => prios.length
    | some k => k) 0xf with hhighest
  have hred : GPT.PrioritizeExecute gpt args = Except.ok
      { gpt with partitions := prioritizeAssign gpt.partitions prios groups1 highest } := by
    unfold GPT.PrioritizeExecute
    rw [hno]
  rw [hred, Except.ok.injEq] at h
  subst h
  have hperm := List.perm_insertionSort
    (fun a b : Nat × Partition => b.2.Attributes.priority ≤ a.2.Attributes.priority) parts
  have hsortpw : List.Pairwise
      (fun a b : Nat × Partition =>
        b.2.Attributes.priority ≤ a.2.Attributes.priority) sorted :=
    List.sorted_insertionSort _ parts
  have hF3 : ∀ q ∈ sorted, gpt.partitions.getD q.1 Partition.Zero = q.2 := by
    intro q hq
    have hq2 : q ∈ parts := hperm.mem_iff.mp hq
    rw [hparts] at hq2
    have hq3 := List.mem_filter.mp hq2
    obtain ⟨qi, qp⟩ := q
    have hget : gpt.partitions[qi]? = some qp := List.mem_enum_iff_getElem?.mp hq3.1
    rw [List.getD_eq_getElem?_getD, hget]
    rfl
  have hF1 : ∀ pri ∈ prios, pri ≠ 0 := by
    intro pri hpri
    rw [hprios] at hpri
    have hpri2 : pri ∈ dictKeys groups1 := (List.perm_insertionSort _ _).mem_iff.mp hpri
    rw [hgroups1] at hpri2
    by_cases hc : (dictKeys groups0).contains 0
    · rw [if_pos hc] at hpri2
      obtain ⟨kv, hkv, hfst⟩ := List.mem_map.mp hpri2
      have hne := (List.mem_filter.mp hkv).2
      rw [← hfst]
      simpa using hne
    · rw [if_neg hc] at hpri2
      intro h0
      rw [h0] at hpri2
      exact hc (List.elem_eq_true_of_mem hpri2)
  have hF2 : ∀ pri run, dictGet groups1 pri = some run → (pri, run) ∈ groups0 := by
    intro pri run hget
    obtain ⟨kv, hkv, hfst, hsnd⟩ := dictGet_mem _ _ _ hget
    have hkveq : kv = (pri, run) := by
      obtain ⟨a, b⟩ := kv
      simp only [Prod.mk.injEq]
      exact ⟨hfst, hsnd⟩
    rw [hkveq, hgroups1] at hkv
    by_cases hc : (dictKeys groups0).contains 0
    · rw [if_pos hc] at hkv
      exact List.mem_of_mem_filter hkv
    · rw [if_neg hc] at hkv
      exact hkv
  have hkey_nodup0 : (groups0.map Prod.fst).Nodup := by
    rw [hgroups0]
    show ((groupRunsF sorted.length sorted).map Prod.fst).Nodup
    exact groupRunsF_keys_nodup _ _ le_rfl hsortpw
  have hkey_nodup1 : (groups1.map Prod.fst).Nodup := by
    rw [hgroups1]
    by_cases hc : (dictKeys groups0).contains 0
    · rw [if_pos hc]
      exact hkey_nodup0.sublist (dictPop_keys_sublist _ _)
    · rw [if_neg hc]
      exact hkey_nodup0
  have hmemF : ∀ pri run, (pri, run) ∈ groups0 →
      (∀ q ∈ run, q.2.Attributes.priority = pri) ∧ List.Sublist run sorted := by
    intro pri run hrun
    rw [hgroups0] at hrun
    have := groupRunsF_mem sorted.length sorted pri run hrun
    exact ⟨this.1, this.2.1⟩
  have hrunpri : ∀ pri run, dictGet groups1 pri = some run → ∀ q ∈ run,
      (gpt.partitions.getD q.1 Partition.Zero).Attributes.priority = pri := by
    intro pri run hget q hq
    obtain ⟨hmempri, hsub⟩ := hmemF pri run (hF2 pri run hget)
    rw [hF3 q (hsub.mem hq)]
    exact hmempri q hq
  constructor
  · intro i hk h0
    show (prioritizeAssign gpt.partitions prios groups1 highest).getD i Partition.Zero = _
    apply prioritizeAssign_frame
    intro pri hpri q hq hq1
    cases hget : dictGet groups1 pri with
    | none => rw [hget] at hq; simp at hq
    | some run =>
        rw [hget] at hq
        have hqp := hrunpri pri run hget q hq
        rw [hq1, h0] at hqp
        exact hF1 pri hpri hqp.symm
  · intro i j hleni hlenj hki hkj hpriEq hpriNe
    have hqi : (i, gpt.partitions.getD i Partition.Zero) ∈ sorted := by
      rw [hsorted]
      apply (List.perm_insertionSort _ _).mem_iff.mpr
      rw [hparts]
      refine List.mem_filter.mpr ⟨?_, by simpa using hki⟩
      apply List.mem_enum_iff_getElem?.mpr
      rw [List.getD_eq_getElem?_getD, List.getElem?_eq_getElem hleni]
      rfl
    have hqj : (j, gpt.partitions.getD j Partition.Zero) ∈ sorted := by
      rw [hsorted]
      apply (List.perm_insertionSort _ _).mem_iff.mpr
      rw [hparts]
      refine List.mem_filter.mpr ⟨?_, by simpa using hkj⟩
      apply List.mem_enum_iff_getElem?.mpr
      rw [List.getD_eq_getElem?_getD, List.getElem?_eq_getElem hlenj]
      rfl
    obtain ⟨run0, hrun0, hqiL, hqjL⟩ := groupRunsF_same_run sorted.length sorted le_rfl
      hsortpw _ hqi _ hqj (by simpa using hpriEq)
    have hrun0g : ((gpt.partitions.getD i Partition.Zero).Attributes.priority, run0)
        ∈ groups0 := by
      rw [hgroups0]
      exact hrun0
    have hrun0g1 : ((gpt.partitions.getD i Partition.Zero).Attributes.priority, run0)
        ∈ groups1 := by
      rw [hgroups1]
      by_cases hc : (dictKeys groups0).contains 0
      · rw [if_pos hc]
        exact (dictPop_mem _ _ _ _ hpriNe).mpr hrun0g
      · rw [if_neg hc]
        exact hrun0g
    have hgetk : dictGet groups1 (gpt.partitions.getD i Partition.Zero).Attributes.priority
        = some run0 := dictGet_of_mem_nodup _ _ _ hkey_nodup1 hrun0g1
    have hndrun : (run0.map Prod.fst).Nodup := by
      have hsub := (hmemF _ _ hrun0g).2
      have h1 : List.Sublist (run0.map Prod.fst) (sorted.map Prod.fst) := hsub.map _
      have h2 : (sorted.map Prod.fst).Nodup := by
        rw [(hperm.map Prod.fst).nodup_iff]
        have h3 : List.Sublist (parts.map Prod.fst)
            (gpt.partitions.enum.map Prod.fst) := by
          rw [hparts]
          exact (List.filter_sublist _).map _
        rw [List.enum_map_fst] at h3
        exact (List.nodup_range _).sublist h3
      exact h2.sublist h1
    show ((prioritizeAssign gpt.partitions prios groups1 highest).getD i
        Partition.Zero).Attributes.priority =
      ((prioritizeAssign gpt.partitions prios groups1 highest).getD j
        Partition.Zero).Attributes.priority
    apply prioritizeAssign_pair
    · rw [hhighest]
      simpa using min_le_right _ 0xf
    · exact hleni
    · exact hlenj
    · exact hpriEq
    · intro pri hpri
      by_cases hpk : pri = (gpt.partitions.getD i Partition.Zero).Attributes.priority
      · right
        rw [hpk, hgetk]
        exact ⟨hndrun, ⟨_, hqiL⟩, ⟨_, hqjL⟩⟩
      · left
        intro q hq
        cases hget : dictGet groups1 pri with
        | none => rw [hget] at hq; simp at hq
        | some run =>
            rw [hget] at hq
            have hqp := hrunpri pri run hget q hq
            constructor
            · intro hq1
              rw [hq1] at hqp
              exact hpk hqp.symm
            · intro hq1
              rw [hq1] at hqp
              rw [← hpriEq] at hqp
              exact hpk hqp.symm

/-- A ChromeOS kernel partition with the given priority nibble and a
distinguishing `UniqueGUID` byte. -/
def C9Kernel (pri uniq : Nat) : Partition :=
  Partition.mk GPT.TYPE_GUID_CHROMEOS_KERNEL (GUID.mk (uniq :: List.replicate 15 0))
    10 20 (PartitionAttributes.mk (pri <<< 48)) []

/-- Two kernel partitions of priorities 2 and 0. -/
def C9CGpt : GPT :=
  GPT.mk none (Header.Create 51200 512 (GUID.mk (List.replicate 16 0)) 0 2)
    [C9Kernel 2 1, C9Kernel 0 2] 512 false

/-- Counterexample to C9: `prioritize -i 2` aimed at the priority-0 kernel
partition changes it (its priority becomes 2), so priority 0 is not
untouched on runs with a target partition. -/
theorem claim_C9_counterexample :
    ∃ gpt2, GPT.PrioritizeExecute C9CGpt (PrioritizeArgs.mk none (some 2) false)
        = Except.ok gpt2 ∧
      (C9CGpt.partitions.getD 1 Partition.Zero).IsChromeOSKernel = true ∧
      (C9CGpt.partitions.getD 1 Partition.Zero).Attributes.priority = 0 ∧
      gpt2.partitions.getD 1 Partition.Zero ≠ C9CGpt.partitions.getD 1 Partition.Zero ∧
      (gpt2.partitions.getD 1 Partition.Zero).Attributes.priority = 2 :=
  ⟨_, rfl, by decide, by decide, by decide, by decide⟩

/-- Three kernel partitions: two of priority 2, one of priority 0. -/
def C9WGpt : GPT :=
  GPT.mk none (Header.Create 51200 512 (GUID.mk (List.replicate 16 0)) 0 3)
    [C9Kernel 2 1, C9Kernel 2 2, C9Kernel 0 3] 512 false

/-- The result of a target-less Prioritize on `C9WGpt`: the two priority-2
kernels move together to priority 1 (with `tries` reset to 15), the
priority-0 kernel is untouched. -/
def C9WGpt2 : GPT :=
  GPT.mk none (Header.Create 51200 512 (GUID.mk (List.replicate 16 0)) 0 3)
    [Partition.mk GPT.TYPE_GUID_CHROMEOS_KERNEL (GUID.mk (1 :: List.replicate 15 0))
        10 20 (PartitionAttributes.mk (2 ^ 48 + 15 * 2 ^ 52)) [],
      Partition.mk GPT.TYPE_GUID_CHROMEOS_KERNEL (GUID.mk (2 :: List.replicate 15 0))
        10 20 (PartitionAttributes.mk (2 ^ 48 + 15 * 2 ^ 52)) [],
      C9Kernel 0 3] 512 false

/-- Witness for C9 on `C9WGpt` with no options. -/
theorem claim_C9_witness :
    (PrioritizeArgs.mk none none false).number = none ∧
    GPT.PrioritizeExecute C9WGpt (PrioritizeArgs.mk none none false) = Except.ok C9WGpt2 ∧
    ((∀ i, (C9WGpt.partitions.getD i Partition.Zero).IsChromeOSKernel →
      (C9WGpt.partitions.getD i Partition.Zero).Attributes.priority = 0 →
      C9WGpt2.partitions.getD i Partition.Zero = C9WGpt.partitions.getD i Partition.Zero) ∧
    (∀ i j, i < C9WGpt.partitions.length → j < C9WGpt.partitions.length →
      (C9WGpt.partitions.getD i Partition.Zero).IsChromeOSKernel →
      (C9WGpt.partitions.getD j Partition.Zero).IsChromeOSKernel →
      (C9WGpt.partitions.getD i Partition.Zero).Attributes.priority =
        (C9WGpt.partitions.getD j Partition.Zero).Attributes.priority →
      (C9WGpt.partitions.getD i Partition.Zero).Attributes.priority ≠ 0 →
      (C9WGpt2.partitions.getD i Partition.Zero).Attributes.priority =
        (C9WGpt2.partitions.getD j Partition.Zero).Attributes.priority)) :=
  ⟨rfl, rfl, claim_C9 C9WGpt (PrioritizeArgs.mk none none false) rfl C9WGpt2 rfl⟩
